import Mathlib

/-!
Verification of the `ui` routing/view core (Go sources) against its specification.

Shallow embedding of the repository's Go source files:
* `uielement.go` — the element tree, views, attach/detach, `ActivateView`;
* the router file (`src/unnamed/part_000`) — `Router`, `rnode` trie, `NavHistory`;
* `event.go` — event plumbing (out of scope for the claims below).

Go machine integers never overflow on the paths exercised here (stack cursors,
list lengths), so they are modelled as `Nat`/`Int`.  Go `nil` maps/slices are
modelled with `Option`; an operation that would panic in Go (nil-map write,
index out of range, nil function call) is modelled by an explicit `panic`
outcome constructor.  Go map iteration (whose order is unspecified) is
modelled by association lists traversed in list order.
-/

namespace UISpec

/-! ## Navigation history (`NavHistory`, router file lines 501-537)

```go
type NavHistory struct { Stack []string ; Cursor int }
func NewNavigationHistory() *NavHistory { return &NavHistory{make([]string, 0, 300), 0} }
func (n *NavHistory) Push(URI string) *NavHistory {
    n.Stack = append(n.Stack[:n.Cursor], URI); n.Cursor++; return n }
func (n *NavHistory) Back() string {
    if n.BackAllowed() { n.Cursor-- }; return n.Stack[n.Cursor] }
func (n *NavHistory) Forward() string {
    if n.ForwardAllowed() { n.Cursor++ }; return n.Stack[n.Cursor] }
func (n *NavHistory) BackAllowed() bool  { return n.Cursor > 0 }
func (n *NavHistory) ForwardAllowed() bool { return n.Cursor < len(n.Stack)-1 }
```

`Cursor` is a Go `int`; it is only ever incremented, or decremented under the
`Cursor > 0` guard, so it stays non-negative and is modelled as `Nat`.
`n.Stack[:n.Cursor]` is modelled by `List.take` (they agree whenever
`Cursor ≤ len Stack`, an invariant of all reachable states, proved below as
`NavHistory.reachable_cursor_le`).  The read `n.Stack[n.Cursor]` in
`Back`/`Forward` panics in Go when the index is out of range; the returned
value is therefore an `Option String`, `none` standing for that panic. -/

structure NavHistory where
  Stack : List String
  Cursor : Nat
deriving Repr, DecidableEq

def NewNavigationHistory : NavHistory := ⟨[], 0⟩

def NavHistory.Push (n : NavHistory) (uri : String) : NavHistory :=
  { Stack := n.Stack.take n.Cursor ++ [uri], Cursor := n.Cursor + 1 }

def NavHistory.BackAllowed (n : NavHistory) : Bool :=
  n.Cursor > 0

def NavHistory.ForwardAllowed (n : NavHistory) : Bool :=
  n.Cursor < n.Stack.length - 1

def NavHistory.Back (n : NavHistory) : Option String × NavHistory :=
  let n' := if n.BackAllowed then { n with Cursor := n.Cursor - 1 } else n
  (n'.Stack.get? n'.Cursor, n')

def NavHistory.Forward (n : NavHistory) : Option String × NavHistory :=
  let n' := if n.ForwardAllowed then { n with Cursor := n.Cursor + 1 } else n
  (n'.Stack.get? n'.Cursor, n')

/-- One user-level operation on the navigation history. -/
inductive NavOp
  | push (uri : String)
  | back
  | forward
deriving Repr, DecidableEq

/-- Applying one operation to a history state (the string returned by
`Back`/`Forward` is discarded; only the state evolution matters here). -/
def NavHistory.step (n : NavHistory) : NavOp → NavHistory
  | .push uri => n.Push uri
  | .back => n.Back.2
  | .forward => n.Forward.2

/-- State reached from `NewNavigationHistory` by a sequence of operations. -/
def NavHistory.run (ops : List NavOp) : NavHistory :=
  ops.foldl NavHistory.step NewNavigationHistory

/-! ## The element tree (`uielement.go`)

Go's `*Element` pointers are modelled by a heap (`Store`) mapping string IDs
to element records; an element's `Children`, `Parent`, `path`, `root` and
`subtreeRoot` pointer fields hold the IDs of the pointed-to elements.  A
reference that is absent from the heap has no Go counterpart (Go pointers are
always valid here); dereferencing one is modelled by the `panic` outcome, so
theorems carry explicit presence hypotheses.  Genuine Go runtime panics
(nil-map writes, nil-pointer dereferences, out-of-range indexing, calling a
nil function value) are modelled by the same `panic` outcome; the `error`
outcome models a non-nil Go `error` return value. -/

/-- Go `interface{}` values stored in the property/data stores.  Only the
variants the sources actually store are modelled: a plain Go `string` (what
`SetUI("activeview", name, ...)` stores, and what the `oldview.(string)` type
assertion accepts), the package's `String` wrapper, and its `Bool` wrapper. -/
inductive Value
  | goStr (s : String)
  | uiStr (s : String)
  | uiBool (b : Bool)
deriving Repr, DecidableEq

/-- Go `error` values produced by the sources: the three router sentinel
errors and ad-hoc `errors.New` messages (also used for errors coming out of a
view's parameterization function). -/
inductive GoError
  | notFound
  | unauthorized
  | frameworkFailure
  | errMsg (s : String)
deriving Repr, DecidableEq

/-- Result of running a Go statement block: normal completion, an `error`
return, or a runtime panic (also used for fuel exhaustion, which in Go would
be divergence on a cyclic structure). -/
inductive Outcome (α : Type)
  | ok (a : α)
  | error (e : GoError)
  | panic
deriving Repr, DecidableEq

instance : Monad Outcome where
  pure := Outcome.ok
  bind o f := match o with
    | .ok a => f a
    | .error e => .error e
    | .panic => .panic

def Outcome.isOk {α : Type} : Outcome α → Bool
  | .ok _ => true
  | _ => false

def Outcome.toOption {α : Type} : Outcome α → Option α
  | .ok a => some a
  | _ => none

/-- `P` holds of the resulting state whenever the outcome is a normal
completion (vacuously true on error/panic outcomes). -/
def Outcome.onOk {α : Type} (o : Outcome α) (P : α → Prop) : Prop :=
  match o with
  | .ok a => P a
  | _ => True

/-- Go `map[string]α` lookup (`v, ok := m[k]`), on the association-list
model of a map.  A nil map is modelled by `Option`ality at the use site:
reads of a nil map simply yield `none`. -/
def goMapGet {α : Type} : List (String × α) → String → Option α
  | [], _ => none
  | (k', v) :: rest, k => if k' = k then some v else goMapGet rest k

/-- Go map assignment `m[k] = v` (replaces in place, or appends a new key). -/
def goMapSet {α : Type} : List (String × α) → String → α → List (String × α)
  | [], k, v => [(k, v)]
  | (k', v') :: rest, k, v =>
      if k' = k then (k, v) :: rest else (k', v') :: goMapSet rest k v

/-- Go `delete(m, k)`. -/
def goMapDel {α : Type} : List (String × α) → String → List (String × α)
  | [], _ => []
  | (k', v') :: rest, k => if k' = k then rest else (k', v') :: goMapDel rest k

/-- `strings.SplitAfter(s, "/")`: splits after every separator, each piece
retaining its trailing `'/'`; always returns at least one (possibly empty)
piece. -/
def splitAfterSlashAux : List Char → List Char → List String
  | [], acc => [String.mk acc.reverse]
  | c :: rest, acc =>
      if c = '/' then String.mk (c :: acc).reverse :: splitAfterSlashAux rest []
      else splitAfterSlashAux rest (c :: acc)

def splitAfterSlash (s : String) : List String :=
  splitAfterSlashAux s.toList []

/-- `strings.HasPrefix(s, pre)`, computed structurally on the character
lists (the library `String.startsWith` does not reduce inside the kernel). -/
def listIsPrefix : List Char → List Char → Bool
  | [], _ => true
  | _ :: _, [] => false
  | p :: ps, c :: cs => p = c && listIsPrefix ps cs

def strHasPrefix (s pre : String) : Bool :=
  listIsPrefix pre.toList s.toList

/-- `strings.TrimPrefix(s, pre)`. -/
def trimPrefixStr (s pre : String) : String :=
  if strHasPrefix s pre then (s.toList.drop pre.toList.length).asString else s

/-- `PropertyStore` (`uielement.go` lines 93-166).  The `Watchers` field and
the watcher notification plumbing are an out-of-scope collaborator (spec §1)
and are not consumed by any claim; dispatched mutation events are recorded in
the heap's trace instead. -/
structure PropertyStore where
  GlobalShared : List (String × Value)
  Default : List (String × Value)
  Inherited : List (String × Value)
  Local : List (String × Value)
  Inheritable : List (String × Value)
deriving Repr, DecidableEq

def PropertyStore.empty : PropertyStore := ⟨[], [], [], [], []⟩

/-- `PropertyStore.Get`: `Inheritable`, then `Local`, `Inherited`, `Default`,
`GlobalShared`. -/
def PropertyStore.Get (p : PropertyStore) (propName : String) : Option Value :=
  (goMapGet p.Inheritable propName).orElse fun _ =>
  (goMapGet p.Local propName).orElse fun _ =>
  (goMapGet p.Inherited propName).orElse fun _ =>
  (goMapGet p.Default propName).orElse fun _ =>
  goMapGet p.GlobalShared propName

/-- `PropertyStore.Set`: inheritable values go to `Inheritable`, the rest to
`Local`. -/
def PropertyStore.Set (p : PropertyStore) (propName : String) (value : Value)
    (inheritable : Bool) : PropertyStore :=
  if inheritable then { p with Inheritable := goMapSet p.Inheritable propName value }
  else { p with Local := goMapSet p.Local propName value }

/-- `DataStore` (`uielement.go` lines 168-209), watcher plumbing likewise
out of scope. -/
structure DataStore where
  Store : List (String × Value)
  Immutable : List (String × Value)
deriving Repr, DecidableEq

def DataStore.empty : DataStore := ⟨[], []⟩

def DataStore.Get (d : DataStore) (label : String) : Option Value :=
  (goMapGet d.Immutable label).orElse fun _ => goMapGet d.Store label

def DataStore.Set (d : DataStore) (label : String) (value : Value) : DataStore :=
  match goMapGet d.Immutable label with
  | some _ => d
  | none => { d with Store := goMapSet d.Store label value }

/-- The name/member part of a `ViewElements` value (member `*Element`s are
held by ID).  A view's parameterization function receives the view itself in
Go; it is modelled as receiving/returning this function-free record. -/
structure ViewData where
  name : String
  elements : List String
deriving Repr, DecidableEq

/-- `ViewElements` (`uielement.go` lines 778-791): a named list of member
elements plus the optional `Parameterize` function (`nil` ⇒ `none`). -/
structure ViewElements where
  name : String
  elements : List String
  Parameterize : Option (String → ViewData → Except GoError ViewData)

/-- `viewNode` (`uielement.go` lines 839-846) holds `(*Element, ViewElements)`;
the router's `insert` only ever consumes the element's `ID` and the view's
`Name()`, which is what the embedding records. -/
structure ViewNodeData where
  elementId : String
  viewName : String
deriving Repr, DecidableEq

/-- `Element` (`uielement.go` lines 65-91).  Pointer fields hold element IDs.
`Children` models the `*Elements` list (every constructor in the sources
allocates it, so the `e.Children != nil` tests are modelled as true);
`AlternateViews` and `ViewAccessPath` are nil-able in Go and hence `Option`.
`isViewAuthorized` is the per-element authorization oracle of the
`ViewElement` collaborator contract (spec §6), whose implementation is not
part of the sources. -/
structure Element where
  Parent : Option String
  Name : String
  ID : String
  DocType : String
  UIProperties : PropertyStore
  Data : DataStore
  Children : List String
  ActiveView : String
  ViewAccessPath : Option (List ViewNodeData)
  AlternateViews : Option (List (String × ViewElements))
  path : List String
  root : String
  subtreeRoot : String
  isViewAuthorized : String → Bool

/-- Mutation records standing for the synchronously dispatched notifications
(watcher plumbing is an out-of-scope collaborator, spec §1). -/
inductive TraceEvent
  | dataMutation (elemId label : String) (value : Value)
  | uiMutation (elemId prop : String) (value : Value)
  | catMutation (elemId cat prop : String) (value : Value)
  | syncUISet (elemId prop : String) (value : Value)
deriving Repr, DecidableEq

/-- The heap: a partial map from element IDs (standing for pointers) to
element records, plus the trace of dispatched mutation notifications. -/
structure Store where
  elems : String → Option Element
  trace : List TraceEvent

/-- Write through a pointer: updates the record if the ID is live.  (All
operations dereference before writing, so a dangling ID never reaches this
point along a path that Go could take.) -/
def Store.update (s : Store) (id : String) (f : Element → Element) : Store :=
  { s with elems := fun i => if i = id then (s.elems i).map f else s.elems i }

def Store.emit (s : Store) (ev : TraceEvent) : Store :=
  { s with trace := s.trace ++ [ev] }

/-- `Element.Set` (`uielement.go` lines 650-654): data-store write plus a
dispatched data mutation event (recorded in the trace). -/
def Store.elemSet (s : Store) (id label : String) (v : Value) : Store :=
  (s.update id fun e => { e with Data := e.Data.Set label v }).emit
    (.dataMutation id label v)

/-- `Element.SetUI` (`uielement.go` lines 660-664). -/
def Store.elemSetUI (s : Store) (id prop : String) (v : Value) (inheritable : Bool) : Store :=
  (s.update id fun e => { e with UIProperties := e.UIProperties.Set prop v inheritable }).emit
    (.uiMutation id prop v)

/-- Modelled from the spec: the categorized `Set(category, propname, value)`
Element method the router file calls (e.g. `Set("navigation", "unauthorized",
Bool(true))`) is not among the sources; per the collaborator contract
(spec §6, "`Set(key, value)` (must synchronously notify watchers)") it is
modelled as a data-store write under the key `category ++ "/" ++ propname`
plus a dispatched mutation record. -/
def Store.elemSetCat (s : Store) (id cat prop : String) (v : Value) : Store :=
  (s.update id fun e => { e with Data := e.Data.Set (cat ++ "/" ++ prop) v }).emit
    (.catMutation id cat prop v)

/-- Projections used by the theorems ( `none` ⇔ the ID is dangling). -/
def Store.childrenOf (s : Store) (id : String) : Option (List String) :=
  (s.elems id).map (·.Children)

def Store.parentOf (s : Store) (id : String) : Option (Option String) :=
  (s.elems id).map (·.Parent)

def Store.subtreeRootOf (s : Store) (id : String) : Option String :=
  (s.elems id).map (·.subtreeRoot)

def Store.activeViewOf (s : Store) (id : String) : Option String :=
  (s.elems id).map (·.ActiveView)

def Store.altViewsOf (s : Store) (id : String) : Option (Option (List (String × ViewElements))) :=
  (s.elems id).map (·.AlternateViews)

/-- Default used only to totalize reads that follow a successful presence
check (updates never remove heap entries, so these defaults are unreachable
on the paths the theorems speak about). -/
def defaultElement : Element :=
  { Parent := none, Name := "", ID := "", DocType := "", UIProperties := .empty,
    Data := .empty, Children := [], ActiveView := "", ViewAccessPath := none,
    AlternateViews := none, path := [], root := "", subtreeRoot := "",
    isViewAuthorized := fun _ => false }

def Store.get (s : Store) (id : String) : Element :=
  (s.elems id).getD defaultElement

/-- Running a Go `for ... range` loop whose body is a statement block: fold
the body over the (snapshotted) list, propagating error/panic outcomes. -/
def Outcome.foldList {σ α : Type} (s : σ) (l : List α) (f : σ → α → Outcome σ) : Outcome σ :=
  match l with
  | [] => .ok s
  | x :: xs =>
    match f s x with
    | .ok s' => Outcome.foldList s' xs f
    | .error e => .error e
    | .panic => .panic

/-- `attach(parent, child, activeview)` (`uielement.go` lines 466-491).
Mirrors the Go statement order: the active-slot branch sets `child.Parent` and
rebuilds `child.path` as `parent.path ++ [parent] ++ child.path` (two
`InsertFirst` calls, the second reading `parent.path` after the first write);
then `root`/`subtreeRoot` are propagated; the view-access path is shared from
the parent when the child owns no views, otherwise the parent's nodes are
prepended — where Go dereferences a nil `*viewNodes` (panic) if either path
is nil; finally the function recurses into the child's active children (as
active) and into every member of every alternate view (as inactive).  The
`fuel` argument bounds the recursion depth: exhaustion models the divergence
Go would exhibit on a cyclic structure.  The write groups are named
`attachStep1`/`attachStep2`/`attachVAP`, composed by `attachLocal`, and the
recursion lives in `attach`.

The active-slot lines of `attach`: `child.Parent = parent` and
`child.path.InsertFirst(parent).InsertFirst(parent.path.List...)` — the
resulting path is `parent.path ++ [parent] ++ child.path`, the second
`InsertFirst` reading `parent.path` after the first write. -/
def attachStep1 (s : Store) (parentId childId : String) (activeview : Bool) : Store :=
  if activeview then
    let sa := s.update childId fun c => { c with Parent := some parentId }
    let sb := sa.update childId fun c => { c with path := parentId :: c.path }
    sb.update childId fun c => { c with path := (sb.get parentId).path ++ c.path }
  else s

/-- `child.root = parent.root ; child.subtreeRoot = parent.subtreeRoot`. -/
def attachStep2 (s : Store) (parentId childId : String) : Store :=
  s.update childId fun c =>
    { c with root := (s.get parentId).root, subtreeRoot := (s.get parentId).subtreeRoot }

/-- The `ViewAccessPath` lines of `attach`: shared from the parent when the
child owns no views; otherwise the parent's nodes are prepended, Go
dereferencing a nil `*viewNodes` (panic) when either path is nil. -/
def attachVAP (s : Store) (parentId childId : String) : Outcome Store :=
  match (s.get childId).AlternateViews with
  | none => .ok (s.update childId fun c => { c with ViewAccessPath := (s.get parentId).ViewAccessPath })
  | some _ =>
    match (s.get parentId).ViewAccessPath, (s.get childId).ViewAccessPath with
    | some pn, some cn => .ok (s.update childId fun c => { c with ViewAccessPath := some (pn ++ cn) })
    | _, _ => .panic

/-- The non-recursive prefix of `attach` (presence of both pointers, then the
three write groups in source order). -/
def attachLocal (s : Store) (parentId childId : String) (activeview : Bool) : Outcome Store :=
  match s.elems parentId, s.elems childId with
  | some _, some _ => attachVAP (attachStep2 (attachStep1 s parentId childId activeview) parentId childId) parentId childId
  | _, _ => .panic

def attach (s : Store) (parentId childId : String) (activeview : Bool) : Nat → Outcome Store
  | 0 => Outcome.panic
  | fuel + 1 =>
    match attachLocal s parentId childId activeview with
    | .ok s3 =>
      match Outcome.foldList s3 (s3.get childId).Children (fun st d => attach st childId d true fuel) with
      | .ok s4 =>
          Outcome.foldList s4 (((s4.get childId).AlternateViews.getD []).flatMap fun kv => kv.2.elements)
            (fun st d => attach st childId d false fuel)
      | r => r
    | r => r

/-- `detach(e)` (`uielement.go` lines 496-533): no-op when `e.Parent` is nil;
otherwise `subtreeRoot := e`, the ancestor `path` is truncated to start after
the former parent, `Parent` is cleared, the view-access path is collapsed
(cleared when the element owns no views, else cut to its own trailing node —
Go panics there on a nil path or an empty node list, via
`nodes[len(nodes)-1:]`), and every child / alternate-view member is
re-attached with `e` as the reference point.  The write groups are named
`detachStep`/`detachVAP` and the recursion lives in `detach`.

The `subtreeRoot`/`path`/`Parent` writes of `detach`: `subtreeRoot := e`,
the ancestor path truncated to start after the former parent (unchanged when
the parent is not on it), and `Parent` cleared. -/
def detachStep (s : Store) (eid pid : String) : Store :=
  let s1 := s.update eid fun x => { x with subtreeRoot := eid }
  let s2 := match List.findIdx? (fun a => a = pid) (s1.get eid).path with
    | some k => s1.update eid fun x => { x with path := x.path.drop (k + 1) }
    | none => s1
  s2.update eid fun x => { x with Parent := none }

/-- The `ViewAccessPath` lines of `detach`: cleared when the element owns no
views, else cut to its own trailing node — Go panics on a nil path pointer
and on an empty node list (`nodes[len(nodes)-1:]`). -/
def detachVAP (s : Store) (eid : String) : Outcome Store :=
  match (s.get eid).AlternateViews with
  | none => .ok (s.update eid fun x => { x with ViewAccessPath := none })
  | some _ =>
    match (s.get eid).ViewAccessPath with
    | none => .panic
    | some ns =>
      if ns.length = 0 then .panic
      else .ok (s.update eid fun x => { x with ViewAccessPath := some (ns.drop (ns.length - 1)) })

def detach (s : Store) (eid : String) (fuel : Nat) : Outcome Store :=
  match s.elems eid with
  | none => Outcome.panic
  | some e =>
    match e.Parent with
    | none => .ok s
    | some pid =>
      match detachVAP (detachStep s eid pid) eid with
      | .ok s4 =>
        match Outcome.foldList s4 (s4.get eid).Children (fun st d => attach st eid d true fuel) with
        | .ok s5 =>
            Outcome.foldList s5 (((s5.get eid).AlternateViews.getD []).flatMap fun kv => kv.2.elements)
              (fun st d => attach st eid d false fuel)
        | r => r
      | r => r

/-- `Element.AppendChild` (`uielement.go` lines 537-549): a doctype mismatch
only logs and returns; otherwise `attach(e, child, true)` and append the
child to `e.Children` (no native wrapper is modelled, so the `e.Native`
branch is skipped as in the nil case). -/
def AppendChild (s : Store) (eid cid : String) (fuel : Nat) : Outcome Store :=
  match s.elems eid, s.elems cid with
  | some e, some c =>
    if e.DocType ≠ c.DocType then .ok s
    else
      match attach s eid cid true fuel with
      | .ok s' => .ok (s'.update eid fun x => { x with Children := x.Children ++ [cid] })
      | r => r
  | _, _ => .panic

/-- `Element.RemoveChild` (`uielement.go` lines 595-602): just
`detach(child)`; the native-bridge call is guarded by `e.Native != nil` and no
native wrapper is modelled.  The receiver is otherwise unused. -/
def RemoveChild (s : Store) (eid cid : String) (fuel : Nat) : Outcome Store :=
  match s.elems eid with
  | none => Outcome.panic
  | some _ => detach s cid fuel

/-- `NewViewElements` (`uielement.go` lines 800-805): sets every member's
`ActiveView` to the view name and returns the view value (with a nil
`Parameterize` function). -/
def NewViewElementsS (s : Store) (name : String) (els : List String) : Store × ViewElements :=
  (els.foldl (fun st id => st.update id fun x => { x with ActiveView := name }) s,
   { name := name, elements := els, Parameterize := none })

/-- `ViewElements.ApplyParameter` (`uielement.go` lines 789-791):
`v.Parameterize(paramvalue, v)`; calling a nil `Parameterize` is a Go panic. -/
def ViewElements.ApplyParameter (v : ViewElements) (paramvalue : String) : Outcome ViewData :=
  match v.Parameterize with
  | none => Outcome.panic
  | some f =>
    match f paramvalue { name := v.name, elements := v.elements } with
    | .error e => .error e
    | .ok vd => .ok vd

/-- The `for k, v := range e.AlternateViews { if strings.HasPrefix(k, ":")
{...break} }` scan in `ActivateView`: first sentinel-prefixed entry.  (Go map
iteration order is unspecified; the association-list order stands in for it.) -/
def findParamView : List (String × ViewElements) → Option (String × ViewElements)
  | [] => none
  | (k, v) :: rest => if strHasPrefix k ":" then some (k, v) else findParamView rest

/-- The detach-and-re-file block `ActivateView` contains verbatim in both its
parameterized and its concrete branch (`uielement.go` lines 407-422 and
436-451): when a previous active view name is recorded under the `activeview`
UI property (as a plain string, non-empty), detach every current child,
re-attach it as inactive unless the outgoing state was a parameter binding
(`oldviewname != e.ActiveView`), and in the non-parameterized case re-file
the current children into `AlternateViews` under the vacated name (a Go
nil-map assignment panic if `AlternateViews` is nil, which cannot happen on
the paths reaching this block). -/
def detachRefile (s : Store) (eid : String) (fuel : Nat) : Outcome Store :=
  match s.elems eid with
  | none => Outcome.panic
  | some e =>
    match e.UIProperties.Get "activeview" with
    | some (Value.goStr oldviewname) =>
      if oldviewname = "" then .ok s
      else
        let viewIsParameterized := oldviewname ≠ e.ActiveView
        match Outcome.foldList s e.Children (fun st c =>
            match detach st c fuel with
            | .ok st1 => if viewIsParameterized then .ok st1 else attach st1 eid c false fuel
            | r => r) with
        | .ok s1 =>
          if viewIsParameterized then .ok s1
          else
            match (s1.get eid).AlternateViews with
            | some _ =>
              let kids := (s1.get eid).Children
              let (s2, nv) := NewViewElementsS s1 oldviewname kids
              .ok (s2.update eid fun y =>
                { y with AlternateViews := some (goMapSet (y.AlternateViews.getD []) oldviewname nv) })
            | none => Outcome.panic
        | r => r
    | _ => .ok s

/-- `Element.ActivateView` (`uielement.go` lines 380-461).  Concrete branch:
detach/re-file the old view, append the requested view's members, delete the
view from `AlternateViews`, record the `activeview` UI property and
`ActiveView := name`.  Parameterized branch (no concrete entry but a
sentinel-prefixed entry exists): reject a bare `":"` parameter name, apply
the parameterization function to the raw `name` (propagating its error),
then the same choreography with the produced members, recording
`ActiveView := parameterName`.  Otherwise the "View does not exist." error. -/
def ActivateView (s : Store) (eid : String) (name : String) (fuel : Nat) : Outcome Store :=
  match s.elems eid with
  | none => Outcome.panic
  | some e =>
    match goMapGet (e.AlternateViews.getD []) name with
    | none =>
      if (e.AlternateViews.getD []).length ≠ 0 then
        match findParamView (e.AlternateViews.getD []) with
        | some (parameterName, view) =>
          if parameterName.length = 1 then
            .error (.errMsg "Bad view name parameter. Needs to be longer than 0 character.")
          else
            match view.ApplyParameter name with
            | .error err => .error err
            | .panic => .panic
            | .ok vd =>
              match detachRefile s eid fuel with
              | .ok s1 =>
                match Outcome.foldList s1 vd.elements (fun st c => AppendChild st eid c fuel) with
                | .ok s2 =>
                  let s3 := s2.elemSetUI eid "activeview" (.goStr name) false
                  .ok (s3.update eid fun y => { y with ActiveView := parameterName })
                | r => r
              | r => r
        | none => .error (.errMsg "View does not exist.")
      else .error (.errMsg "View does not exist.")
    | some newview =>
      match detachRefile s eid fuel with
      | .ok s1 =>
        match Outcome.foldList s1 newview.elements (fun st c => AppendChild st eid c fuel) with
        | .ok s2 =>
          let s3 := s2.update eid fun y => { y with AlternateViews := y.AlternateViews.map (goMapDel · name) }
          let s4 := s3.elemSetUI eid "activeview" (.goStr name) false
          .ok (s4.update eid fun y => { y with ActiveView := name })
        | r => r
      | r => r

/-! ## Router trie (`rnode`, router file lines 264-448)

`*rnode` pointers are modelled by a second heap (`RStore`) keyed by `Nat`
references, with an allocation counter for `newchildrnode`. -/

/-- One `rnode`: the back-reference to the root node (`nil`-able `*rnode`),
the cached `value` (a copy of the wrapped element's ID), the wrapped
`ViewElement`'s element ID, and the two-level `next` map
(`map[viewname]map[viewid]*rnode`, nil-able). -/
structure RnodeData where
  root : Option Nat
  value : String
  elemId : String
  next : Option (List (String × List (String × Nat)))
deriving Repr, DecidableEq

structure RStore where
  nodes : Nat → Option RnodeData
  nextRef : Nat

def RStore.updateNode (st : RStore) (ref : Nat) (f : RnodeData → RnodeData) : RStore :=
  { st with nodes := fun i => if i = ref then (st.nodes i).map f else st.nodes i }

/-- `newchildrnode` (router lines 274-283).  The Go function builds a map `m`
keyed by the element's view names but then returns
`&rnode{root, v.Element().ID, v, nil}`: the struct's `next` field receives
`nil`, not `m` (`m` is discarded).  The allocated node therefore carries
`next := none`. -/
def newchildrnode (st : RStore) (elemId : String) (rootRef : Option Nat) : RStore × Nat :=
  let ref := st.nextRef
  ({ nodes := fun i =>
       if i = ref then some { root := rootRef, value := elemId, elemId := elemId, next := none }
       else st.nodes i,
     nextRef := ref + 1 }, ref)

/-- `newrootrnode` (router lines 285-289): allocate with a nil root pointer,
then point the node's `root` at itself. -/
def newrootrnode (st : RStore) (elemId : String) : RStore × Nat :=
  let (st1, ref) := newchildrnode st elemId none
  (st1.updateNode ref (fun rd => { rd with root := some ref }), ref)

/-- `rnode.attach` (router lines 322-332).  `m, ok := r.next[tv]` reads fine
even on a nil map, but when `tv` is absent the subsequent
`r.next[targetviewname] = m` assigns into `r.next` — a Go runtime panic
whenever `r.next` is nil (which `newchildrnode` always leaves it). -/
def rnodeAttach (st : RStore) (rRef : Nat) (targetviewname : String) (nrRef : Nat) : Outcome RStore :=
  match st.nodes rRef, st.nodes nrRef with
  | some rd, some nrd =>
    match rd.next with
    | none => Outcome.panic
    | some nx =>
      match goMapGet nx targetviewname with
      | none =>
          .ok (st.updateNode rRef fun r =>
            { r with next := some (goMapSet nx targetviewname [(nrd.elemId, nrRef)]) })
      | some m =>
        match goMapGet m nrd.elemId with
        | none =>
            .ok (st.updateNode rRef fun r =>
              { r with next := some (goMapSet nx targetviewname (goMapSet m nrd.elemId nrRef)) })
        | some _ => .ok st
  | _, _ => Outcome.panic

/-- The `for i, node := range viewpathnodes` walk of `rnode.insert` (router
lines 307-317): while a successor exists, allocate a fresh child node for the
successor's element (rooted at the *receiver* `rn`), attach it under the
current reference node by the current node's view name, and advance the
reference to the freshly allocated node (not to the node already present in
the trie).  Returns the final reference node and the last traversed view
name. -/
def insertWalk (rnRef : Nat) : RStore → Nat → String → List ViewNodeData → Outcome (RStore × Nat × String)
  | st, refRef, viewname, [] => .ok (st, refRef, viewname)
  | st, refRef, viewname, [_] => .ok (st, refRef, viewname)
  | st, refRef, _, node :: nxt :: rest =>
      let (st1, nrRef) := newchildrnode st nxt.elementId (some rnRef)
      match rnodeAttach st1 refRef node.viewName nrRef with
      | .ok st2 => insertWalk rnRef st2 nrRef node.viewName (nxt :: rest)
      | .error e => .error e
      | .panic => .panic

/-- `rnode.insert` (router lines 293-319): no-op when the subject element's
`ViewAccessPath` is nil; Go indexes `viewpathnodes[0]` (panic when the node
list is empty) and dereferences `rn.root` (panic when nil); a first path
entry whose element differs from the root node's element is a silent no-op;
otherwise the pairwise walk runs and the argument node is attached under the
final reference node by the last traversed view name. -/
def rnodeInsert (rst : RStore) (es : Store) (rnRef nrnRef : Nat) : Outcome RStore :=
  match rst.nodes nrnRef with
  | none => Outcome.panic
  | some nrn =>
    match es.elems nrn.elemId with
    | none => Outcome.panic
    | some el =>
      match el.ViewAccessPath with
      | none => .ok rst
      | some viewpathnodes =>
        match viewpathnodes with
        | [] => Outcome.panic
        | first :: _ =>
          match rst.nodes rnRef with
          | none => Outcome.panic
          | some rn =>
            match rn.root with
            | none => Outcome.panic
            | some rootRef =>
              match rst.nodes rootRef with
              | none => Outcome.panic
              | some rootNode =>
                if first.elementId ≠ rootNode.elemId then .ok rst
                else
                  match insertWalk rnRef rst rnRef "" viewpathnodes with
                  | .ok (st1, refRef, viewname) => rnodeAttach st1 refRef viewname nrnRef
                  | .error e => .error e
                  | .panic => .panic

/-- Modelled from the spec: `ViewElement.hasParameterizedView` is part of the
`ViewElement` collaborator surface absent from the sources; per spec §4.3/§4.1
("a parameterized view exists among `AlternateViews` (name prefixed with the
parameter sentinel)") it yields the first sentinel-prefixed view name among
the element's alternate views. -/
def hasParameterizedView (es : Store) (elemId : String) : Option String :=
  (es.elems elemId).bind fun e => (findParamView (e.AlternateViews.getD [])).map (·.1)

/-- Modelled from the spec: `ViewElement.isViewAuthorized` — the per-element
authorization predicate of the collaborator contract (spec §6), read from the
element's oracle field (`false` on a dangling reference, which has no Go
counterpart). -/
def Store.isViewAuthorized (es : Store) (elemId name : String) : Bool :=
  match es.elems elemId with
  | some e => e.isViewAuthorized name
  | none => false

/-- The activation plan `rnode.match` returns.  In Go it is a slice of
closures, but every closure captures the *same* receiver variable `r`, which
the pair loop keeps reassigning; when the closures eventually run (after
`match` has returned) they all see its final value.  The plan therefore
records the final rnode (`target`) and the ordered view names. -/
structure MatchPlan where
  target : Nat
  names : List String
deriving Repr, DecidableEq

/-- The `for i := 1; i <= viewcount; i++` pair loop of `rnode.match` (router
lines 395-437); `remaining` counts the iterations left.  Each iteration reads
`segments[2*i]` and `segments[2*i+1]` (the latter is out of range — a Go
index panic — on the final iteration whenever it is reached, since
`2*viewcount+1 = ls`), resolves the child rnode by ID, re-resolves the next
view-name map with the parameterized fallback, authorizes the view name and
appends an activation. -/
def matchLoop (rst : RStore) (segments : List String) :
    Nat → Nat → Nat → List (String × Nat) → List String → Store → Outcome MatchPlan × Store
  | 0, _i, rRef, _m, acc, es => (.ok { target := rRef, names := acc.reverse }, es)
  | remaining + 1, i, _rRef, m, acc, es =>
    match segments.get? (2 * i) with
    | none => (.panic, es)
    | some rs =>
      match segments.get? (2 * i + 1) with
      | none => (.panic, es)
      | some nrs =>
        match goMapGet m rs with
        | none => (.error .notFound, es)
        | some rRef' =>
          match rst.nodes rRef' with
          | none => (.panic, es)
          | some rd' =>
            if rd'.value ≠ rs then (.error .notFound, es)
            else
              let step : Outcome (List (String × Nat)) × Store :=
                match goMapGet (rd'.next.getD []) nrs with
                | some m' => (.ok m', es)
                | none =>
                  match hasParameterizedView es rd'.elemId with
                  | none => (.error .notFound, es)
                  | some param =>
                    if !(Store.isViewAuthorized es rd'.elemId param) then (.error .unauthorized, es)
                    else
                      let es1 := es.elemSetCat rd'.elemId "navigation" param (.uiStr rs)
                      match goMapGet (rd'.next.getD []) param with
                      | none => (.error .frameworkFailure, es1)
                      | some m' => (.ok m', es1)
              match step with
              | (.ok m', es') =>
                  if !(Store.isViewAuthorized es' rd'.elemId nrs) then (.error .unauthorized, es')
                  else matchLoop rst segments remaining (i + 1) rRef' m' (nrs :: acc) es'
              | (.error e, es') => (.error e, es')
              | (.panic, es') => (.panic, es')

/-- `rnode.match` (router lines 335-448): trim the leading separator,
`SplitAfter` on `"/"` (each token keeps its trailing slash), look the first
token up in the root node's `next`, falling back to the parameterized view
(authorization check, a navigation-scoped `Set` of the raw token, and — when
more tokens follow — the `next` map keyed by the parameter name, whose
absence is `ErrFrameworkFailure`); a single token yields one activation after
an authorization check; an even token count fails the parity check with
`ErrNotFound`; otherwise the pair loop runs. -/
def rnodeMatch (rst : RStore) (es : Store) (rRef : Nat) (route : String) : Outcome MatchPlan × Store :=
  let segments := splitAfterSlash (trimPrefixStr route "/")
  let ls := segments.length
  if ls = 0 then (.error .notFound, es)
  else
    match rst.nodes rRef with
    | none => (.panic, es)
    | some rd =>
      let seg0 := segments.headD ""
      let step1 : Outcome (String × List (String × Nat)) × Store :=
        match goMapGet (rd.next.getD []) seg0 with
        | some m => (.ok ("", m), es)
        | none =>
          match hasParameterizedView es rd.elemId with
          | none => (.ok ("", []), es)
          | some param =>
            if !(Store.isViewAuthorized es rd.elemId param) then (.error .unauthorized, es)
            else
              let es1 := es.elemSetCat rd.elemId "navigation" param (.uiStr seg0)
              if ls ≠ 1 then
                match goMapGet (rd.next.getD []) param with
                | none => (.error .frameworkFailure, es1)
                | some m => (.ok (param, m), es1)
              else (.ok (param, []), es1)
      match step1 with
      | (.error e, es') => (.error e, es')
      | (.panic, es') => (.panic, es')
      | (.ok (param, m), es1) =>
        if ls = 1 then
          if param ≠ "" then
            if Store.isViewAuthorized es1 rd.elemId param then
              (.ok { target := rRef, names := [seg0] }, es1)
            else (.error .unauthorized, es1)
          else if Store.isViewAuthorized es1 rd.elemId seg0 then
            (.ok { target := rRef, names := [seg0] }, es1)
          else (.error .unauthorized, es1)
        else if ls % 2 ≠ 1 then (.error .notFound, es1)
        else matchLoop rst segments ((ls - ls % 2) / 2) 1 rRef m [] es1

/-! ## Router orchestration (router file lines 21-216) -/

/-- Result of running the composed activation chain: Go `error` returns leave
all mutations performed so far in place, so the state accompanies the error.
(`ActivateView`'s error returns all precede its first mutation, so each
failing link leaves the state it received.) -/
inductive ChainRes
  | ok (s : Store)
  | err (e : GoError) (s : Store)
  | panic

def runChainAux (eid : String) (fuel : Nat) : Store → List String → ChainRes
  | s, [] => .ok s
  | s, n :: ns =>
    match ActivateView s eid n fuel with
    | .ok s' => runChainAux eid fuel s' ns
    | .error e => .err e s
    | .panic => .panic

/-- The `activationFn` closure chain built by `match` (router lines 438-446):
run each activation in order, stopping at the first error.  Every closure
dereferences the shared captured receiver variable, i.e. the plan's final
rnode. -/
def runActivationChain (rst : RStore) (plan : MatchPlan) (fuel : Nat) (es : Store) : ChainRes :=
  match rst.nodes plan.target with
  | none => .panic
  | some rd => runChainAux rd.elemId fuel es plan.names

/-- The router fields the reactive handler consumes. -/
structure RouterCfg where
  BaseURL : String
  rootElemId : String
  rootRnode : Nat
  LeaveTrailingSlash : Bool

/-- The normalization prefix of the handler (router lines 149-155): unless
`LeaveTrailingSlash` is set, `newroute[len(newroute)-1:]` is compared with
`"/"` — a Go slice-bounds panic (`none`) when the route string is empty — and
a trailing slash is dropped; then the base URL prefix is trimmed. -/
def normalizeRoute (cfg : RouterCfg) (newroute : String) : Option String :=
  if cfg.LeaveTrailingSlash then some (trimPrefixStr newroute cfg.BaseURL)
  else if newroute = "" then none
  else
    let nr := if newroute.toList.getLast? = some '/' then
        newroute.toList.dropLast.asString
      else newroute
    some (trimPrefixStr nr cfg.BaseURL)

/-- Modelled from the spec: `Element.SyncUISetData` is absent from the
sources; per spec §4.4 it "publishes the new current route", modelled as a
data write plus a dispatched record. -/
def Store.syncUISetData (s : Store) (id prop : String) (v : Value) : Store :=
  (s.update id fun e => { e with Data := e.Data.Set prop v }).emit (.syncUISet id prop v)

/-- `Router.handler` (router lines 141-173): a payload that is not a
`ui.String` logs and signals `appfailure`; otherwise the route is normalized,
matched against the trie, and on a match error the handler sets the
`navigation/unauthorized` field and stops; on a successful match the
activation chain runs — an error again sets `navigation/unauthorized` —
and only a fully successful chain publishes `currentroute` (with the original
event payload). -/
def routerHandler (cfg : RouterCfg) (rst : RStore) (es : Store) (payload : Value) (fuel : Nat) :
    Outcome (Store × Bool) :=
  match payload with
  | .uiStr nroute =>
    match normalizeRoute cfg nroute with
    | none => Outcome.panic
    | some newroute =>
      match rnodeMatch rst es cfg.rootRnode newroute with
      | (.error _, es1) =>
          .ok (es1.elemSetCat cfg.rootElemId "navigation" "unauthorized" (.uiBool true), true)
      | (.panic, _) => Outcome.panic
      | (.ok plan, es1) =>
        match runActivationChain rst plan fuel es1 with
        | .panic => Outcome.panic
        | .err _ s2 =>
            .ok (s2.elemSetCat cfg.rootElemId "navigation" "unauthorized" (.uiBool true), true)
        | .ok s2 => .ok (s2.syncUISetData cfg.rootElemId "currentroute" payload, false)
  | _ => .ok (es.elemSetCat cfg.rootElemId "navigation" "appfailure" (.uiBool true), true)

/-! ## `NewIDgenerator` (`uielement.go` lines 21-28)

```go
func NewIDgenerator(seed int64) func() string {
    return func() string {
        bstr := make([]byte, 32)
        rand.Seed(seed)
        _, _ = rand.Read(bstr)
        return string(bstr)
    }
}
```

Go's `math/rand` global generator is deterministic: `Seed` resets its state
as a pure function of the seed, and `Read` is a pure function of that state.
It is modelled by explicit state threading with a stand-in congruential
generator (the concrete constants are irrelevant: the claims only concern the
reseed-on-every-call structure).  A Go `string` of raw bytes is modelled as a
`List Nat`. -/

abbrev RngState := Nat

def randSeed (seed : Int) : RngState :=
  seed.natAbs % 2147483647

def randStep (st : RngState) : Nat × RngState :=
  let st' := (st * 48271 + 12345) % 2147483647
  (st' % 256, st')

def randRead : RngState → Nat → List Nat × RngState
  | st, 0 => ([], st)
  | st, n + 1 =>
    let (b, st1) := randStep st
    let (bs, st2) := randRead st1 n
    (b :: bs, st2)

/-- The generator closure returned by `NewIDgenerator(seed)`: it takes the
ambient global-PRNG state and returns the produced ID together with the new
global state.  Because the closure begins with `rand.Seed(seed)`, the ambient
state is discarded on every invocation. -/
def NewIDgenerator (seed : Int) : RngState → List Nat × RngState :=
  fun _st =>
    let st1 := randSeed seed
    randRead st1 32

/-! ## Write footprints (used by the frame theorems) -/

/-- Over-approximation of the IDs whose fields `attach(_, id, _, fuel)` may
write: the node itself plus, recursively, its children and alternate-view
members. -/
def reach (s : Store) : Nat → String → List String
  | 0, id => [id]
  | fuel + 1, id =>
      id :: ((s.get id).Children ++
        ((s.get id).AlternateViews.getD []).flatMap fun kv => kv.2.elements).flatMap (reach s fuel)

/-- IDs that `detach id` may re-attach (and hence write) besides `id` itself:
the reach of each child and each alternate-view member. -/
def detachFootprint (s : Store) (fuel : Nat) (id : String) : List String :=
  ((s.get id).Children ++
    ((s.get id).AlternateViews.getD []).flatMap fun kv => kv.2.elements).flatMap (reach s fuel)

/-- Two heaps agree on every element's `Children` and `AlternateViews`
(`attach`/`detach` never write either field, so they preserve this). -/
def StructEq (s t : Store) : Prop :=
  ∀ x, t.childrenOf x = s.childrenOf x ∧ t.altViewsOf x = s.altViewsOf x

/-- Two heaps are live on the same IDs (no operation allocates or frees). -/
def DomEq (s t : Store) : Prop :=
  ∀ x, (t.elems x).isSome = (s.elems x).isSome

/-- Two heaps agree on `x`'s `Parent` and `subtreeRoot`. -/
def PSEq (x : String) (s t : Store) : Prop :=
  t.parentOf x = s.parentOf x ∧ t.subtreeRootOf x = s.subtreeRootOf x

/-- An outcome that is not a Go `error` return. -/
def NotErr {α : Type} (o : Outcome α) : Prop :=
  ∀ e, o ≠ Outcome.error e

/-! ## Concrete states used by counterexamples and witnesses -/

/-- A concrete element; `isViewAuthorized` is the all-allowing oracle. -/
def mkElem (id : String) (parent : Option String) (children : List String)
    (activeView : String) (uiLocal : List (String × Value))
    (alt : Option (List (String × ViewElements))) (pth : List String) : Element :=
  { Parent := parent, Name := id, ID := id, DocType := "html",
    UIProperties := { PropertyStore.empty with Local := uiLocal },
    Data := .empty, Children := children, ActiveView := activeView,
    ViewAccessPath := none, AlternateViews := alt, path := pth,
    root := "root", subtreeRoot := "root", isViewAuthorized := fun _ => true }

/-- Element `e` renders view `"A"` (child `a`) and holds view `"B"`
(member `b`) in `AlternateViews`. -/
def c2store : Store :=
  { elems := fun i =>
      if i = "e" then some (mkElem "e" none ["a"] "A" [("activeview", .goStr "A")]
        (some [("B", { name := "B", elements := ["b"], Parameterize := none })]) [])
      else if i = "a" then some (mkElem "a" (some "e") [] "A" [] none ["e"])
      else if i = "b" then some (mkElem "b" none [] "B" [] none [])
      else none,
    trace := [] }

/-- A parameterization function accepting everything except `"bad"`. -/
def c3param : String → ViewData → Except GoError ViewData :=
  fun v _ => if v = "bad" then .error (.errMsg "invalid parameter") else .ok { name := ":id", elements := ["b"] }

/-- Element `e` renders view `"A"` (child `a`) and owns the parameterized
view `":id"`. -/
def c3store : Store :=
  { elems := fun i =>
      if i = "e" then some (mkElem "e" none ["a"] "A" [("activeview", .goStr "A")]
        (some [(":id", { name := ":id", elements := [], Parameterize := some c3param })]) [])
      else if i = "a" then some (mkElem "a" (some "e") [] "A" [] none ["e"])
      else if i = "b" then some (mkElem "b" none [] "B" [] none [])
      else none,
    trace := [] }

/-- Like `c3store`, but the parameterized view is registered under the bare
sentinel name `":"` — the view name `NewParameterizedView("")` produces,
since that constructor merely prepends the colon to its argument. -/
def c3colonStore : Store :=
  { elems := fun i =>
      if i = "e" then some (mkElem "e" none ["a"] "A" [("activeview", .goStr "A")]
        (some [(":", { name := ":", elements := [], Parameterize := some c3param })]) [])
      else if i = "a" then some (mkElem "a" (some "e") [] "A" [] none ["e"])
      else if i = "b" then some (mkElem "b" none [] "B" [] none [])
      else none,
    trace := [] }

/-- A root-only trie (the root rnode's `next` is nil, as `newchildrnode`
always leaves it) over a root element owning the parameterized view `":id"`
with an all-allowing authorization oracle. -/
def c5rst : RStore :=
  { nodes := fun i =>
      if i = 0 then some { root := some 0, value := "root", elemId := "root", next := none }
      else none,
    nextRef := 1 }

def c5store : Store :=
  { elems := fun i =>
      if i = "root" then some (mkElem "root" none [] "" []
        (some [(":id", { name := ":id", elements := [], Parameterize := none })]) [])
      else none,
    trace := [] }

/-- The router configuration sitting on top of `c5rst`/`c5store`. -/
def c4cfg : RouterCfg :=
  { BaseURL := "", rootElemId := "root", rootRnode := 0, LeaveTrailingSlash := false }

/-- Trie and element heap for the insert claims: the root trie node (`ref 0`)
wraps element `"root"`; node `ref 1` wraps element `"v"` whose view-access
path starts at `"root"` through view `"home"`; node `ref 2` wraps element
`"w"` whose view-access path starts at the foreign element `"other"`. -/
def c6rst : RStore :=
  { nodes := fun i =>
      if i = 0 then some { root := some 0, value := "root", elemId := "root", next := none }
      else if i = 1 then some { root := some 0, value := "v", elemId := "v", next := none }
      else if i = 2 then some { root := some 0, value := "w", elemId := "w", next := none }
      else none,
    nextRef := 3 }

def c6store : Store :=
  { elems := fun i =>
      if i = "root" then some (mkElem "root" none [] "" [] none [])
      else if i = "v" then
        some { mkElem "v" none [] "" [] none [] with
                 ViewAccessPath := some [{ elementId := "root", viewName := "home" }] }
      else if i = "w" then
        some { mkElem "w" none [] "" [] none [] with
                 ViewAccessPath := some [{ elementId := "other", viewName := "home" }] }
      else none,
    trace := [] }

/-- In every reachable state the cursor is at most the stack length, so the Go
slice expression `n.Stack[:n.Cursor]` inside `Push` never panics and agrees
with `List.take`. -/
theorem NavHistory.step_cursor_le (n : NavHistory) (op : NavOp)
    (h : n.Cursor ≤ n.Stack.length) : (n.step op).Cursor ≤ (n.step op).Stack.length := by
  cases op with
  | push uri =>
      simp only [NavHistory.step, NavHistory.Push, List.length_append,
        List.length_take, List.length_cons, List.length_nil]
      omega
  | back =>
      simp only [NavHistory.step, NavHistory.Back]
      split
      · exact Nat.le_trans (Nat.sub_le _ _) h
      · exact h
  | forward =>
      simp only [NavHistory.step, NavHistory.Forward]
      split
      · next hlt =>
          simp only [NavHistory.ForwardAllowed, decide_eq_true_eq] at hlt
          show n.Cursor + 1 ≤ n.Stack.length
          omega
      · exact h

theorem NavHistory.reachable_cursor_le (ops : List NavOp) :
    (NavHistory.run ops).Cursor ≤ (NavHistory.run ops).Stack.length := by
  induction ops using List.reverseRecOn with
  | nil => simp [NavHistory.run, NewNavigationHistory]
  | append_singleton ops op ih =>
      rw [NavHistory.run, List.foldl_append, List.foldl_cons, List.foldl_nil]
      exact NavHistory.step_cursor_le _ op ih

/-- A witness instantiating `NavHistory.step_cursor_le` at a concrete state. -/
theorem NavHistory.step_cursor_le_witness :
    (NavHistory.mk ["/a"] 1).Cursor ≤ (NavHistory.mk ["/a"] 1).Stack.length ∧
      ((NavHistory.mk ["/a"] 1).step (.push "/b")).Cursor ≤
        ((NavHistory.mk ["/a"] 1).step (.push "/b")).Stack.length :=
  ⟨by decide, NavHistory.step_cursor_le ⟨["/a"], 1⟩ (.push "/b") (by decide)⟩

theorem splitAfterSlashAux_ne_nil (cs acc) : splitAfterSlashAux cs acc ≠ [] := by
  induction cs generalizing acc with
  | nil => simp [splitAfterSlashAux]
  | cons c rest ih =>
      simp only [splitAfterSlashAux]
      split
      · simp
      · exact ih _

theorem splitAfterSlash_ne_nil (s : String) : splitAfterSlash s ≠ [] :=
  splitAfterSlashAux_ne_nil _ _

/-- C1. The claim says that after `Push("/a"); Push("/b")` a call to `Back()`
returns `"/a"`.  Evaluating the embedded code: `Push` leaves `Cursor` one past
the entry it just appended (`Cursor = len(Stack)`), so `Back` decrements the
cursor to `1` and returns `Stack[1] = "/b"` — the route that is *current*, not
the previous one.  (The subsequent `Forward()` does return `"/b"`, but only
because `ForwardAllowed` is false and the read happens to hit index 1 again;
and `Push("/c")` after the `Back` does drop `"/b"` from the stack.)  This
theorem records the evaluated behaviour at the claim's own input. -/
theorem navHistory_back_returns_current_route :
    (((NewNavigationHistory.Push "/a").Push "/b").Back).1 = some "/b" ∧
      ((((NewNavigationHistory.Push "/a").Push "/b").Back).2.Push "/c").Stack = ["/a", "/c"] ∧
      (((NewNavigationHistory.Push "/a").Push "/b").Back).2.Forward.1 = some "/b" := by
  decide

/-- C8. The claim states the invariant `0 ≤ cursor < len(stack)` for every
non-empty reachable state.  Evaluating the embedded code at the reachable state
`Push("/a")` (from a fresh history): the stack is non-empty but
`Cursor = 1 = len(Stack)`, violating `cursor < len(stack)`; moreover `Forward`
in that state is a boundary no-op that then reads `Stack[1]`, which is out of
range (a Go index panic, modelled by `none`).  The state (stack and cursor) is
nevertheless left unchanged by that boundary `Forward`. -/
theorem navHistory_push_breaks_cursor_invariant :
    (NavHistory.run [.push "/a"]).Stack ≠ [] ∧
      (NavHistory.run [.push "/a"]).Cursor = (NavHistory.run [.push "/a"]).Stack.length ∧
      (NavHistory.run [.push "/a"]).Forward.1 = none ∧
      (NavHistory.run [.push "/a"]).Forward.2 = NavHistory.run [.push "/a"] := by
  decide

/-! ## Frame machinery: `attach`/`detach` never write `Children` or
`AlternateViews`, keep the heap domain constant, and only write the
`Parent`/`subtreeRoot` fields of elements inside the attach footprint. -/

theorem update_map_proj {β : Type} (g : Element → β) (s : Store) (id : String)
    (f : Element → Element) (hf : ∀ e, g (f e) = g e) (x : String) :
    ((s.update id f).elems x).map g = (s.elems x).map g := by
  simp only [Store.update]
  by_cases h : x = id
  · subst h
    simp only [if_pos rfl]
    cases s.elems x <;> simp [hf]
  · simp [h]

theorem childrenOf_update (s : Store) (id : String) (f : Element → Element)
    (hf : ∀ e, (f e).Children = e.Children) (x : String) :
    (s.update id f).childrenOf x = s.childrenOf x :=
  update_map_proj (·.Children) s id f hf x

theorem altViewsOf_update (s : Store) (id : String) (f : Element → Element)
    (hf : ∀ e, (f e).AlternateViews = e.AlternateViews) (x : String) :
    (s.update id f).altViewsOf x = s.altViewsOf x :=
  update_map_proj (·.AlternateViews) s id f hf x

theorem parentOf_update (s : Store) (id : String) (f : Element → Element)
    (hf : ∀ e, (f e).Parent = e.Parent) (x : String) :
    (s.update id f).parentOf x = s.parentOf x :=
  update_map_proj (·.Parent) s id f hf x

theorem subtreeRootOf_update (s : Store) (id : String) (f : Element → Element)
    (hf : ∀ e, (f e).subtreeRoot = e.subtreeRoot) (x : String) :
    (s.update id f).subtreeRootOf x = s.subtreeRootOf x :=
  update_map_proj (·.subtreeRoot) s id f hf x

theorem proj_update_other {β : Type} (g : Element → β) (s : Store) (id : String)
    (f : Element → Element) (x : String) (hx : x ≠ id) :
    ((s.update id f).elems x).map g = (s.elems x).map g := by
  simp [Store.update, hx]

theorem StructEq.seRefl (s : Store) : StructEq s s := fun _ => ⟨Eq.refl _, Eq.refl _⟩

theorem StructEq.seTrans {a b c : Store} (h1 : StructEq a b) (h2 : StructEq b c) :
    StructEq a c :=
  fun x => ⟨(h2 x).1.trans (h1 x).1, (h2 x).2.trans (h1 x).2⟩

theorem StructEq.toDomEq {s t : Store} (h : StructEq s t) : DomEq s t := by
  intro x
  have hc := (h x).1
  simp only [Store.childrenOf] at hc
  cases hs : s.elems x <;> cases ht : t.elems x <;> simp [hs, ht] at hc ⊢

theorem StructEq.children_get {s t : Store} (h : StructEq s t) (x : String) :
    (t.get x).Children = (s.get x).Children := by
  have hc := (h x).1
  simp only [Store.childrenOf] at hc
  simp only [Store.get]
  cases hs : s.elems x <;> cases ht : t.elems x <;> simp [hs, ht] at hc ⊢ <;> exact hc

theorem StructEq.alt_get {s t : Store} (h : StructEq s t) (x : String) :
    (t.get x).AlternateViews = (s.get x).AlternateViews := by
  have hc := (h x).2
  simp only [Store.altViewsOf] at hc
  simp only [Store.get]
  cases hs : s.elems x <;> cases ht : t.elems x <;> simp [hs, ht] at hc ⊢ <;> exact hc

theorem PSEq.psRefl (x : String) (s : Store) : PSEq x s s := ⟨Eq.refl _, Eq.refl _⟩

theorem PSEq.psTrans {x : String} {a b c : Store} (h1 : PSEq x a b) (h2 : PSEq x b c) :
    PSEq x a c :=
  ⟨h2.1.trans h1.1, h2.2.trans h1.2⟩

theorem DomEq.domRefl (s : Store) : DomEq s s := fun _ => Eq.refl _

theorem DomEq.domTrans {a b c : Store} (h1 : DomEq a b) (h2 : DomEq b c) : DomEq a c :=
  fun x => (h2 x).trans (h1 x)

theorem DomEq.update (s : Store) (id : String) (f : Element → Element) :
    DomEq s (s.update id f) := by
  intro x
  simp only [Store.update]
  by_cases h : x = id
  · subst h; simp only [if_pos rfl]; cases s.elems x <;> simp
  · simp [h]

theorem reach_congr {s t : Store} (h : StructEq s t) :
    ∀ (fuel : Nat) (x : String), reach t fuel x = reach s fuel x := by
  intro fuel
  induction fuel with
  | zero => intro x; rfl
  | succ n ih =>
      intro x
      have hfun : reach t n = reach s n := funext ih
      simp only [reach, h.children_get, h.alt_get, hfun]

theorem foldList_ok_rel {α : Type} (R : Store → Store → Prop)
    (hrefl : ∀ s, R s s) (htrans : ∀ {a b c : Store}, R a b → R b c → R a c)
    (f : Store → α → Outcome Store)
    (hf : ∀ st a st', f st a = .ok st' → R st st') :
    ∀ (l : List α) (s s' : Store), Outcome.foldList s l f = .ok s' → R s s' := by
  intro l
  induction l with
  | nil =>
      intro s s' h
      simp only [Outcome.foldList] at h
      cases h
      exact hrefl s
  | cons a as ih =>
      intro s s' h
      simp only [Outcome.foldList] at h
      split at h
      · next s1 heq => exact htrans (hf _ _ _ heq) (ih _ _ h)
      · exact Outcome.noConfusion h
      · exact Outcome.noConfusion h

theorem foldList_notErr {σ α : Type} (f : σ → α → Outcome σ)
    (hf : ∀ st a, NotErr (f st a)) :
    ∀ (l : List α) (s : σ), NotErr (Outcome.foldList s l f) := by
  intro l
  induction l with
  | nil => intro s e h; simp only [Outcome.foldList] at h; exact Outcome.noConfusion h
  | cons a as ih =>
      intro s e h
      simp only [Outcome.foldList] at h
      split at h
      · exact ih _ e h
      · next e' heq => exact hf s a e' heq
      · exact Outcome.noConfusion h

theorem attachStep1_structEq (s : Store) (p c : String) (av : Bool) :
    StructEq s (attachStep1 s p c av) := by
  unfold attachStep1
  split
  · intro x
    refine ⟨?_, ?_⟩ <;>
    · simp only [Store.childrenOf, Store.altViewsOf, Store.update]
      by_cases hx : x = c
      · subst hx; simp only [if_pos rfl]; cases s.elems x <;> simp
      · simp [hx]
  · exact StructEq.seRefl s

theorem structEq_update_aux (s : Store) (id : String) (f : Element → Element)
    (hf1 : ∀ e, (f e).Children = e.Children)
    (hf2 : ∀ e, (f e).AlternateViews = e.AlternateViews) :
    StructEq s (s.update id f) :=
  fun x => ⟨childrenOf_update s id f hf1 x, altViewsOf_update s id f hf2 x⟩

theorem attachStep2_structEq (s : Store) (p c : String) :
    StructEq s (attachStep2 s p c) :=
  structEq_update_aux _ _ _ (fun _ => Eq.refl _) (fun _ => Eq.refl _)

theorem attachVAP_structEq (s : Store) (p c : String) (t : Store)
    (h : attachVAP s p c = .ok t) : StructEq s t := by
  unfold attachVAP at h
  split at h
  · cases h
    exact structEq_update_aux _ _ _ (fun _ => Eq.refl _) (fun _ => Eq.refl _)
  · split at h
    · cases h
      exact structEq_update_aux _ _ _ (fun _ => Eq.refl _) (fun _ => Eq.refl _)
    · exact Outcome.noConfusion h

theorem attachLocal_structEq (s : Store) (p c : String) (av : Bool) (t : Store)
    (h : attachLocal s p c av = .ok t) : StructEq s t := by
  unfold attachLocal at h
  split at h
  · exact (attachStep1_structEq s p c av).seTrans
      ((attachStep2_structEq _ p c).seTrans (attachVAP_structEq _ p c t h))
  · exact Outcome.noConfusion h

theorem attach_structEq :
    ∀ (fuel : Nat) (s : Store) (p c : String) (av : Bool) (s' : Store),
      attach s p c av fuel = .ok s' → StructEq s s' := by
  intro fuel
  induction fuel with
  | zero => intro s p c av s' h; exact Outcome.noConfusion h
  | succ n ih =>
      intro s p c av s' h
      simp only [attach] at h
      split at h
      · next s3 hloc =>
          split at h
          · next s4 hfold1 =>
              have e1 := attachLocal_structEq s p c av s3 hloc
              have e2 := foldList_ok_rel StructEq StructEq.seRefl StructEq.seTrans _
                (fun st a st' hh => ih st c a true st' hh) _ _ _ hfold1
              have e3 := foldList_ok_rel StructEq StructEq.seRefl StructEq.seTrans _
                (fun st a st' hh => ih st c a false st' hh) _ _ _ h
              exact e1.seTrans (e2.seTrans e3)
          · next r hne => exact (hne s' h).elim
      · next r hne => exact (hne s' h).elim

theorem detachStep_structEq (s : Store) (eid pid : String) :
    StructEq s (detachStep s eid pid) := by
  unfold detachStep
  have base := structEq_update_aux s eid
    (fun x => { x with subtreeRoot := eid }) (fun _ => Eq.refl _) (fun _ => Eq.refl _)
  refine StructEq.seTrans base (StructEq.seTrans ?_ (structEq_update_aux _ eid _ (fun _ => Eq.refl _) (fun _ => Eq.refl _)))
  split
  · exact structEq_update_aux _ eid _ (fun _ => Eq.refl _) (fun _ => Eq.refl _)
  · exact StructEq.seRefl _

theorem detachVAP_structEq (s : Store) (eid : String) (t : Store)
    (h : detachVAP s eid = .ok t) : StructEq s t := by
  unfold detachVAP at h
  split at h
  · cases h
    exact structEq_update_aux _ _ _ (fun _ => Eq.refl _) (fun _ => Eq.refl _)
  · split at h
    · exact Outcome.noConfusion h
    · split at h
      · exact Outcome.noConfusion h
      · cases h
        exact structEq_update_aux _ _ _ (fun _ => Eq.refl _) (fun _ => Eq.refl _)

theorem detach_structEq (s : Store) (eid : String) (fuel : Nat) (s' : Store)
    (h : detach s eid fuel = .ok s') : StructEq s s' := by
  unfold detach at h
  split at h
  · exact Outcome.noConfusion h
  · next e =>
      split at h
      · cases h; exact StructEq.seRefl s
      · next pid hpar =>
          split at h
          · next s4 hvap =>
              split at h
              · next s5 hfold1 =>
                  have e1 := (detachStep_structEq s eid pid).seTrans (detachVAP_structEq _ eid s4 hvap)
                  have e2 := foldList_ok_rel StructEq StructEq.seRefl StructEq.seTrans _
                    (fun st a st' hh => attach_structEq fuel st eid a true st' hh) _ _ _ hfold1
                  have e3 := foldList_ok_rel StructEq StructEq.seRefl StructEq.seTrans _
                    (fun st a st' hh => attach_structEq fuel st eid a false st' hh) _ _ _ h
                  exact e1.seTrans (e2.seTrans e3)
              · next r hne => exact (hne s' h).elim
          · next r hne => exact (hne s' h).elim

theorem emit_elems (s : Store) (ev : TraceEvent) : (s.emit ev).elems = s.elems :=
  Eq.refl _

theorem NewViewElementsS_domEq (name : String) :
    ∀ (els : List String) (s : Store), DomEq s (NewViewElementsS s name els).1 := by
  intro els
  induction els with
  | nil => intro s; exact DomEq.domRefl s
  | cons a as ih =>
      intro s
      simp only [NewViewElementsS, List.foldl_cons] at *
      exact DomEq.domTrans (DomEq.update s a _) (ih _)

theorem elemSetUI_domEq (s : Store) (id prop : String) (v : Value) (inh : Bool) :
    DomEq s (s.elemSetUI id prop v inh) := by
  intro x
  simp only [Store.elemSetUI, Store.emit]
  exact DomEq.update s id _ x

theorem AppendChild_domEq (s : Store) (eid cid : String) (fuel : Nat) (s' : Store)
    (h : AppendChild s eid cid fuel = .ok s') : DomEq s s' := by
  unfold AppendChild at h
  split at h
  · split at h
    · cases h; exact DomEq.domRefl s
    · split at h
      · next s1 hat =>
          cases h
          exact DomEq.domTrans (attach_structEq fuel s eid cid true s1 hat).toDomEq
            (DomEq.update s1 eid _)
      · next r hne => exact (hne s' h).elim
  · exact Outcome.noConfusion h

theorem detachRefile_domEq (s : Store) (eid : String) (fuel : Nat) (s' : Store)
    (h : detachRefile s eid fuel = .ok s') : DomEq s s' := by
  unfold detachRefile at h
  split at h
  · exact Outcome.noConfusion h
  · next e helems =>
      split at h
      · next ov hov =>
          split at h
          · cases h; exact DomEq.domRefl s
          · simp only [] at h
            have hfd : ∀ (st : Store) (c : String) (st' : Store),
                (match detach st c fuel with
                  | .ok st1 =>
                      if ov ≠ e.ActiveView then Outcome.ok st1 else attach st1 eid c false fuel
                  | r => r) = .ok st' → DomEq st st' := by
              intro st c st' hh
              split at hh
              · next st1 hdet =>
                  have d1 := (detach_structEq st c fuel st1 hdet).toDomEq
                  split at hh
                  · cases hh; exact d1
                  · exact d1.domTrans (attach_structEq fuel st1 eid c false st' hh).toDomEq
              · next r hne => exact (hne st' hh).elim
            split at h
            · next s1 hfold =>
                have d1 := foldList_ok_rel DomEq DomEq.domRefl DomEq.domTrans _ hfd _ _ _ hfold
                split at h
                · cases h; exact d1
                · split at h
                  · next hsome =>
                      cases h
                      exact d1.domTrans ((NewViewElementsS_domEq ov _ s1).domTrans
                        (DomEq.update _ eid _))
                  · exact Outcome.noConfusion h
            · next r hne => exact (hne s' h).elim
      · cases h; exact DomEq.domRefl s

theorem attachVAP_notErr (s : Store) (p c : String) : NotErr (attachVAP s p c) := by
  intro e h
  unfold attachVAP at h
  split at h
  · exact Outcome.noConfusion h
  · split at h <;> exact Outcome.noConfusion h

theorem attachLocal_notErr (s : Store) (p c : String) (av : Bool) :
    NotErr (attachLocal s p c av) := by
  intro e h
  unfold attachLocal at h
  split at h
  · exact attachVAP_notErr _ p c e h
  · exact Outcome.noConfusion h

theorem attach_notErr :
    ∀ (fuel : Nat) (s : Store) (p c : String) (av : Bool), NotErr (attach s p c av fuel) := by
  intro fuel
  induction fuel with
  | zero => intro s p c av e h; exact Outcome.noConfusion h
  | succ n ih =>
      intro s p c av e h
      simp only [attach] at h
      split at h
      · next s3 hloc =>
          split at h
          · next s4 hfold1 =>
              exact foldList_notErr _ (fun st a => ih st c a false) _ _ e h
          · next r hne =>
              exact foldList_notErr _ (fun st a => ih st c a true) _ _ e h
      · next r hne => exact attachLocal_notErr s p c av e h

theorem detachVAP_notErr (s : Store) (eid : String) : NotErr (detachVAP s eid) := by
  intro e h
  unfold detachVAP at h
  split at h
  · exact Outcome.noConfusion h
  · split at h
    · exact Outcome.noConfusion h
    · split at h <;> exact Outcome.noConfusion h

theorem detach_notErr (s : Store) (eid : String) (fuel : Nat) : NotErr (detach s eid fuel) := by
  intro e h
  unfold detach at h
  split at h
  · exact Outcome.noConfusion h
  · split at h
    · exact Outcome.noConfusion h
    · next pid hpar =>
        split at h
        · next s4 hvap =>
            split at h
            · next s5 hfold1 =>
                exact foldList_notErr _ (fun st a => attach_notErr fuel st eid a false) _ _ e h
            · next r hne =>
                exact foldList_notErr _ (fun st a => attach_notErr fuel st eid a true) _ _ e h
        · next r hne => exact detachVAP_notErr _ eid e h

theorem AppendChild_notErr (s : Store) (eid cid : String) (fuel : Nat) :
    NotErr (AppendChild s eid cid fuel) := by
  intro e h
  unfold AppendChild at h
  split at h
  · split at h
    · exact Outcome.noConfusion h
    · split at h
      · exact Outcome.noConfusion h
      · next r hne => exact attach_notErr fuel s eid cid true e h
  · exact Outcome.noConfusion h

theorem detachRefile_notErr (s : Store) (eid : String) (fuel : Nat) :
    NotErr (detachRefile s eid fuel) := by
  intro e h
  unfold detachRefile at h
  split at h
  · exact Outcome.noConfusion h
  · next el helems =>
      split at h
      · next ov hov =>
          split at h
          · exact Outcome.noConfusion h
          · simp only [] at h
            have hfd : ∀ (st : Store) (c : String), NotErr
                (match detach st c fuel with
                  | .ok st1 =>
                      if ov ≠ el.ActiveView then Outcome.ok st1 else attach st1 eid c false fuel
                  | r => r) := by
              intro st c e' hh
              split at hh
              · next st1 hdet =>
                  split at hh
                  · exact Outcome.noConfusion hh
                  · exact attach_notErr fuel st1 eid c false e' hh
              · next r hne => exact detach_notErr st c fuel e' hh
            split at h
            · next s1 hfold =>
                split at h
                · exact Outcome.noConfusion h
                · split at h
                  · exact Outcome.noConfusion h
                  · exact Outcome.noConfusion h
            · next r hne => exact foldList_notErr _ hfd _ _ e h
      · exact Outcome.noConfusion h

theorem psEq_update (s : Store) (id : String) (f : Element → Element) (x : String)
    (h1 : ∀ e, (f e).Parent = e.Parent) (h2 : ∀ e, (f e).subtreeRoot = e.subtreeRoot) :
    PSEq x s (s.update id f) :=
  ⟨parentOf_update s id f h1 x, subtreeRootOf_update s id f h2 x⟩

theorem psEq_update_other (s : Store) (id : String) (f : Element → Element) (x : String)
    (hx : x ≠ id) : PSEq x s (s.update id f) :=
  ⟨proj_update_other (·.Parent) s id f x hx, proj_update_other (·.subtreeRoot) s id f x hx⟩

theorem attachStep1_ps (s : Store) (p c : String) (av : Bool) (x : String) (hx : x ≠ c) :
    PSEq x s (attachStep1 s p c av) := by
  unfold attachStep1
  split
  · exact (psEq_update_other s c _ x hx).psTrans
      ((psEq_update_other _ c _ x hx).psTrans (psEq_update_other _ c _ x hx))
  · exact PSEq.psRefl x s

theorem attachStep2_ps (s : Store) (p c : String) (x : String) (hx : x ≠ c) :
    PSEq x s (attachStep2 s p c) :=
  psEq_update_other s c _ x hx

theorem attachVAP_ps (s : Store) (p c : String) (t : Store) (h : attachVAP s p c = .ok t)
    (x : String) : PSEq x s t := by
  unfold attachVAP at h
  split at h
  · cases h; exact psEq_update s c _ x (fun _ => Eq.refl _) (fun _ => Eq.refl _)
  · split at h
    · cases h; exact psEq_update s c _ x (fun _ => Eq.refl _) (fun _ => Eq.refl _)
    · exact Outcome.noConfusion h

theorem attachLocal_ps (s : Store) (p c : String) (av : Bool) (t : Store)
    (h : attachLocal s p c av = .ok t) (x : String) (hx : x ≠ c) : PSEq x s t := by
  unfold attachLocal at h
  split at h
  · exact (attachStep1_ps s p c av x hx).psTrans
      ((attachStep2_ps _ p c x hx).psTrans (attachVAP_ps _ p c t h x))
  · exact Outcome.noConfusion h

theorem foldList_ps {α : Type} (x : String) (s₀ : Store) (f : Store → α → Outcome Store)
    (hstruct : ∀ st a st', f st a = .ok st' → StructEq st st') :
    ∀ (l : List α),
      (∀ st a st', a ∈ l → StructEq s₀ st → f st a = .ok st' → PSEq x st st') →
      ∀ s s', StructEq s₀ s → Outcome.foldList s l f = .ok s' → PSEq x s s' := by
  intro l
  induction l with
  | nil =>
      intro _ s s' _ h
      simp only [Outcome.foldList] at h
      cases h
      exact PSEq.psRefl x s
  | cons a as ih =>
      intro hps s s' h0 h
      simp only [Outcome.foldList] at h
      split at h
      · next s1 heq =>
          have p1 := hps s a s1 (List.mem_cons_self a as) h0 heq
          have h0' := h0.seTrans (hstruct s a s1 heq)
          have p2 := ih (fun st b st' hb => hps st b st' (List.mem_cons_of_mem a hb)) s1 s' h0' h
          exact p1.psTrans p2
      · exact Outcome.noConfusion h
      · exact Outcome.noConfusion h

theorem attach_ps :
    ∀ (fuel : Nat) (s : Store) (p c : String) (av : Bool) (s' : Store),
      attach s p c av fuel = .ok s' → ∀ x, x ∉ reach s fuel c → PSEq x s s' := by
  intro fuel
  induction fuel with
  | zero => intro s p c av s' h; exact Outcome.noConfusion h
  | succ n ih =>
      intro s p c av s' h x hx
      rw [reach] at hx
      simp only [List.mem_cons, List.mem_flatMap, not_or, not_exists, not_and] at hx
      obtain ⟨hxc, hxL⟩ := hx
      simp only [attach] at h
      split at h
      · next s3 hloc =>
          have e3 := attachLocal_structEq s p c av s3 hloc
          have ps3 := attachLocal_ps s p c av s3 hloc x hxc
          split at h
          · next s4 hfold1 =>
              have hkids : (s3.get c).Children = (s.get c).Children := e3.children_get c
              have ps4 := foldList_ps x s (fun st d => attach st c d true n)
                (fun st a st' hh => attach_structEq n st c a true st' hh)
                _
                (fun st a st' ha hst hok =>
                  ih st c a true st' hok x (by
                    rw [reach_congr hst]
                    intro hmem
                    exact hxL a (by
                      rw [hkids] at ha
                      exact List.mem_append_left _ ha) hmem))
                s3 s4 e3 hfold1
              have e4 := e3.seTrans (foldList_ok_rel StructEq StructEq.seRefl StructEq.seTrans _
                (fun st a st' hh => attach_structEq n st c a true st' hh) _ _ _ hfold1)
              have halts : (s4.get c).AlternateViews = (s.get c).AlternateViews := e4.alt_get c
              have ps5 := foldList_ps x s (fun st d => attach st c d false n)
                (fun st a st' hh => attach_structEq n st c a false st' hh)
                _
                (fun st a st' ha hst hok =>
                  ih st c a false st' hok x (by
                    rw [reach_congr hst]
                    intro hmem
                    exact hxL a (by
                      rw [halts] at ha
                      exact List.mem_append_right _ ha) hmem))
                s4 s' e4 h
              exact ps3.psTrans (ps4.psTrans ps5)
          · next r hne => exact (hne s' h).elim
      · next r hne => exact (hne s' h).elim

theorem detachStep_parent (s : Store) (eid pid : String) (e : Element)
    (hs : s.elems eid = some e) :
    (detachStep s eid pid).parentOf eid = some none ∧
      (detachStep s eid pid).subtreeRootOf eid = some eid := by
  constructor <;>
  · simp only [detachStep]
    split <;> simp [Store.parentOf, Store.subtreeRootOf, Store.update, Store.get, hs]

theorem detachVAP_ps (s : Store) (eid : String) (t : Store) (h : detachVAP s eid = .ok t)
    (x : String) : PSEq x s t := by
  unfold detachVAP at h
  split at h
  · cases h; exact psEq_update s eid _ x (fun _ => Eq.refl _) (fun _ => Eq.refl _)
  · split at h
    · exact Outcome.noConfusion h
    · split at h
      · exact Outcome.noConfusion h
      · cases h; exact psEq_update s eid _ x (fun _ => Eq.refl _) (fun _ => Eq.refl _)

/-- C10. `Element.RemoveChild(c)` only calls `detach(c)`: it clears
`c.Parent`, marks `c`'s subtree as detached (`subtreeRoot := c`), but never
removes `c` from `e.Children.List` — in fact no element's `Children` list
changes at all, so `c` is still among `e`'s children afterwards.  Stated for
any heap where `c` is live with a parent and is not its own (re-attached)
descendant; the conclusion holds whenever the call completes normally (the
`detach` recursion can only panic on heaps with no Go counterpart or
insufficient fuel). -/
theorem RemoveChild_keeps_children (s : Store) (eid cid pid : String) (fuel : Nat)
    (h0 : (s.elems eid).isSome = true)
    (h1 : s.parentOf cid = some (some pid))
    (h2 : cid ∈ (s.childrenOf eid).getD [])
    (h3 : cid ∉ detachFootprint s fuel cid) :
    Outcome.onOk (RemoveChild s eid cid fuel) (fun s' =>
      s'.parentOf cid = some none ∧ s'.subtreeRootOf cid = some cid ∧
      s'.childrenOf eid = s.childrenOf eid ∧ cid ∈ (s'.childrenOf eid).getD []) := by
  obtain ⟨ee, he0⟩ := Option.isSome_iff_exists.mp h0
  obtain ⟨cd, hcd, hpar⟩ : ∃ cd, s.elems cid = some cd ∧ cd.Parent = some pid := by
    simp only [Store.parentOf] at h1
    cases hc : s.elems cid with
    | none => rw [hc] at h1; exact Option.noConfusion h1
    | some cd =>
        rw [hc] at h1
        exact ⟨cd, Eq.refl _, Option.some.injEq _ _ ▸ (by simpa using h1)⟩
  unfold RemoveChild
  rw [he0]
  unfold detach
  rw [hcd]
  dsimp only []
  rw [hpar]
  dsimp only []
  cases hvap : detachVAP (detachStep s cid pid) cid with
  | error e => trivial
  | panic => trivial
  | ok s4 =>
      dsimp only []
      have eSt4 : StructEq s s4 :=
        (detachStep_structEq s cid pid).seTrans (detachVAP_structEq _ cid s4 hvap)
      have hps0 := detachStep_parent s cid pid cd hcd
      have hps4 := detachVAP_ps _ cid s4 hvap cid
      have hp4 : s4.parentOf cid = some none := hps4.1.trans hps0.1
      have hsub4 : s4.subtreeRootOf cid = some cid := hps4.2.trans hps0.2
      have hfoot : ∀ a ∈ (s.get cid).Children ++
          (((s.get cid).AlternateViews.getD []).flatMap fun kv => kv.2.elements),
          cid ∉ reach s fuel a := by
        intro a ha hmem
        exact h3 (List.mem_flatMap.mpr ⟨a, ha, hmem⟩)
      cases hf1 : Outcome.foldList s4 (s4.get cid).Children
          (fun st d => attach st cid d true fuel) with
      | error e => trivial
      | panic => trivial
      | ok s5 =>
          dsimp only []
          have hkids : (s4.get cid).Children = (s.get cid).Children := eSt4.children_get cid
          have hps5 : PSEq cid s4 s5 :=
            foldList_ps cid s (fun st d => attach st cid d true fuel)
              (fun st a st' hh => attach_structEq fuel st cid a true st' hh) _
              (fun st a st' ha hst hok =>
                attach_ps fuel st cid a true st' hok cid (by
                  rw [reach_congr hst]
                  exact hfoot a (List.mem_append_left _ (hkids ▸ ha))))
              s4 s5 eSt4 hf1
          have eSt5 : StructEq s s5 := eSt4.seTrans
            (foldList_ok_rel StructEq StructEq.seRefl StructEq.seTrans _
              (fun st a st' hh => attach_structEq fuel st cid a true st' hh) _ _ _ hf1)
          cases hf2 : Outcome.foldList s5
              (((s5.get cid).AlternateViews.getD []).flatMap fun kv => kv.2.elements)
              (fun st d => attach st cid d false fuel) with
          | error e => trivial
          | panic => trivial
          | ok s6 =>
              have halts : (s5.get cid).AlternateViews = (s.get cid).AlternateViews :=
                eSt5.alt_get cid
              have hps6 : PSEq cid s5 s6 :=
                foldList_ps cid s (fun st d => attach st cid d false fuel)
                  (fun st a st' hh => attach_structEq fuel st cid a false st' hh) _
                  (fun st a st' ha hst hok =>
                    attach_ps fuel st cid a false st' hok cid (by
                      rw [reach_congr hst]
                      exact hfoot a (List.mem_append_right _ (by rw [halts] at ha; exact ha))))
                  s5 s6 eSt5 hf2
              have eSt6 : StructEq s s6 := eSt5.seTrans
                (foldList_ok_rel StructEq StructEq.seRefl StructEq.seTrans _
                  (fun st a st' hh => attach_structEq fuel st cid a false st' hh) _ _ _ hf2)
              refine ⟨(hps6.1.trans (hps5.1.trans hp4) : _), (hps6.2.trans (hps5.2.trans hsub4) : _), ?_, ?_⟩
              · exact (eSt6 eid).1
              · rw [(eSt6 eid).1]; exact h2

/-- Witness for `RemoveChild_keeps_children` at the concrete heap `c2store`
(parent `"e"`, child `"a"`). -/
theorem RemoveChild_keeps_children_witness :
    Outcome.onOk (RemoveChild c2store "e" "a" 3) (fun s' =>
      s'.parentOf "a" = some none ∧ s'.subtreeRootOf "a" = some "a" ∧
      s'.childrenOf "e" = c2store.childrenOf "e" ∧ "a" ∈ (s'.childrenOf "e").getD []) :=
  RemoveChild_keeps_children c2store "e" "a" "e" 3 (by decide) (by decide) (by decide) (by decide)

/-- C3 (amended). For an element with no concrete view named `name` but a
parameterized (sentinel-prefixed) view among its `AlternateViews` *whose
name is longer than the bare sentinel `":"`*, `ActivateView(name)` invokes
that view's parameterization function with `name` as the raw value; if the
function returns an error, `ActivateView` returns exactly that error (before
any mutation); if it succeeds, `ActivateView` never returns an error and, on
normal completion, records `e.ActiveView` as the *parameter's* name (e.g.
`":id"`), not the literal `name`.  The length proviso is needed: a view
registered under the bare sentinel `":"` (which `NewParameterizedView("")`
produces) is sentinel-prefixed, yet the code answers it with the
"Bad view name parameter" error without invoking the parameterization
function — see the counterexample theorem below.  (Go scans the
`AlternateViews` map in unspecified order; the model scans the association
list, so the theorem speaks about the entry `findParamView` selects.) -/
theorem ActivateView_parameterized_spec (s : Store) (eid name : String) (fuel : Nat)
    (ed : Element) (avs : List (String × ViewElements)) (pname : String) (view : ViewElements)
    (f : String → ViewData → Except GoError ViewData)
    (h0 : s.elems eid = some ed)
    (h1 : ed.AlternateViews = some avs)
    (h2 : goMapGet avs name = none)
    (h3 : findParamView avs = some (pname, view))
    (h4 : 2 ≤ pname.length)
    (h5 : view.Parameterize = some f) :
    (∀ err, f name { name := view.name, elements := view.elements } = .error err →
        ActivateView s eid name fuel = .error err) ∧
    (∀ vd, f name { name := view.name, elements := view.elements } = .ok vd →
        (∀ e', ActivateView s eid name fuel ≠ .error e') ∧
        Outcome.onOk (ActivateView s eid name fuel)
          (fun s' => s'.activeViewOf eid = some pname)) := by
  have hne : avs.length ≠ 0 := by
    intro hlen
    rw [List.length_eq_zero] at hlen
    subst hlen
    simp [findParamView] at h3
  have hp1 : ¬ pname.length = 1 := by omega
  constructor
  · intro err herr
    unfold ActivateView
    rw [h0]; try dsimp only []
    rw [h1]; simp only [Option.getD_some]
    rw [h2]; try dsimp only []
    rw [if_pos hne, h3]; try dsimp only []
    rw [if_neg hp1]
    unfold ViewElements.ApplyParameter
    rw [h5]; try dsimp only []
    rw [herr]
  · intro vd hvd
    have hred : ActivateView s eid name fuel =
        (match detachRefile s eid fuel with
          | .ok s1 =>
            (match Outcome.foldList s1 vd.elements (fun st c => AppendChild st eid c fuel) with
              | .ok s2 =>
                  Outcome.ok ((s2.elemSetUI eid "activeview" (.goStr name) false).update eid
                    (fun y => { y with ActiveView := pname }))
              | r => r)
          | r => r) := by
      unfold ActivateView
      rw [h0]; try dsimp only []
      rw [h1]; simp only [Option.getD_some]
      rw [h2]; try dsimp only []
      rw [if_pos hne, h3]; try dsimp only []
      rw [if_neg hp1]
      unfold ViewElements.ApplyParameter
      rw [h5]; try dsimp only []
      rw [hvd]
    constructor
    · intro e' hcontra
      rw [hred] at hcontra
      split at hcontra
      · next s1 hdr =>
          split at hcontra
          · exact Outcome.noConfusion hcontra
          · next r hne2 =>
              exact foldList_notErr _ (fun st a => AppendChild_notErr st eid a fuel) _ _ e' hcontra
      · next r hne2 => exact detachRefile_notErr s eid fuel e' hcontra
    · rw [hred]
      cases hdr : detachRefile s eid fuel with
      | error e => trivial
      | panic => trivial
      | ok s1 =>
          dsimp only []
          cases hfl : Outcome.foldList s1 vd.elements (fun st c => AppendChild st eid c fuel) with
          | error e => trivial
          | panic => trivial
          | ok s2 =>
              have hdom : DomEq s (s2.elemSetUI eid "activeview" (.goStr name) false) :=
                ((detachRefile_domEq s eid fuel s1 hdr).domTrans
                  (foldList_ok_rel DomEq DomEq.domRefl DomEq.domTrans _
                    (fun st a st' hh => AppendChild_domEq st eid a fuel st' hh) _ _ _ hfl)).domTrans
                  (elemSetUI_domEq s2 eid _ _ _)
              have hsome : (((s2.elemSetUI eid "activeview" (.goStr name) false)).elems eid).isSome = true := by
                rw [hdom eid, h0]
                rfl
              obtain ⟨y, hy⟩ := Option.isSome_iff_exists.mp hsome
              show Store.activeViewOf _ eid = some pname
              simp [Store.activeViewOf, Store.update, hy]

/-- Witness for `ActivateView_parameterized_spec` at the concrete heap
`c3store`: the rejected value `"bad"` surfaces the parameterization error,
and the accepted value `"42"` completes with `ActiveView = ":id"`. -/
theorem ActivateView_parameterized_witness :
    ActivateView c3store "e" "bad" 4 = .error (.errMsg "invalid parameter") ∧
    Outcome.onOk (ActivateView c3store "e" "42" 4)
      (fun s' => s'.activeViewOf "e" = some ":id") :=
  ⟨(ActivateView_parameterized_spec c3store "e" "bad" 4 _ _ ":id"
      { name := ":id", elements := [], Parameterize := some c3param } c3param
      (Eq.refl _) (Eq.refl _) (Eq.refl _) (Eq.refl _) (by decide) (Eq.refl _)).1 _ (Eq.refl _),
   ((ActivateView_parameterized_spec c3store "e" "42" 4 _ _ ":id"
      { name := ":id", elements := [], Parameterize := some c3param } c3param
      (Eq.refl _) (Eq.refl _) (Eq.refl _) (Eq.refl _) (by decide) (Eq.refl _)).2
      ⟨":id", ["b"]⟩ (Eq.refl _)).2⟩

/-- C3 (counterexample).  The original claim quantifies over *every*
parameterized view (any key prefixed by `":"`).  At `c3colonStore` the
element owns the parameterized view `":"` (the name `NewParameterizedView("")`
yields) whose parameterization function accepts the value `"42"`, yet
`ActivateView("42")` returns the "Bad view name parameter" error instead of
nil: the `len(parameterName) == 1` guard fires before the function is ever
invoked, so the claim as stated is false at this input. -/
theorem ActivateView_bare_sentinel_counterexample :
    c3param "42" { name := ":", elements := [] } = .ok { name := ":id", elements := ["b"] } ∧
    ActivateView c3colonStore "e" "42" 3 =
      .error (.errMsg "Bad view name parameter. Needs to be longer than 0 character.") := by
  exact ⟨by rfl, by rfl⟩

/-- C2. The claim (spec §3 invariant) says that after a successful
`ActivateView` the active view's members are exactly the rendered children
and the previously active view's members are no longer among them.
Evaluating the embedded code at `c2store` (element `e` rendering view `"A"`
with child `a`, alternate view `"B"` with member `b`): `ActivateView("B")`
returns nil, but `e.Children` is `["a", "b"]` — the detach loop never removes
the old children from `e.Children.List` and `AppendChild` appends to it, so
`a` (also re-filed into `AlternateViews["A"]`) is still a rendered child. -/
theorem activateView_retains_previous_children :
    ((ActivateView c2store "e" "B" 3).toOption.bind fun s' => s'.childrenOf "e") =
        some ["a", "b"] ∧
    ((ActivateView c2store "e" "B" 3).toOption.bind fun s' => s'.activeViewOf "e") =
        some "B" ∧
    ((ActivateView c2store "e" "B" 3).toOption.bind fun s' =>
        (s'.altViewsOf "e").map fun o => (o.getD []).map Prod.fst) = some (some ["A"]) := by
  refine ⟨?_, ?_, ?_⟩ <;> rfl

/-- C6. The claim says re-inserting an already-registered (view name,
element ID) pair is a no-op on the trie shape.  In this code nothing can be
registered in the first place: `newchildrnode` computes the child-view map
`m` but stores `nil` in the struct's `next` field (router line 282), and the
first `rnode.attach` any effective `insert` performs executes
`r.next[targetviewname] = m` — an assignment into that nil map, a Go runtime
panic.  Evaluating the embedded insert of node 1 (element `"v"`, view-access
path `root → "home"`) into the fresh root trie: -/
theorem rnodeInsert_panics_on_nil_next_map :
    rnodeInsert c6rst c6store 0 1 = Outcome.panic := by
  rfl

/-- C7. `rnode.insert` returns without modifying the trie whenever the
subject element's view-access path is non-nil, non-empty, and its first
entry's owning element differs from the trie root's element. -/
theorem rnodeInsert_foreign_root_noop (rst : RStore) (es : Store) (rnRef nrnRef rootRef : Nat)
    (nrn rn rootNode : RnodeData) (el : Element) (first : ViewNodeData) (rest : List ViewNodeData)
    (h1 : rst.nodes nrnRef = some nrn)
    (h2 : es.elems nrn.elemId = some el)
    (h3 : el.ViewAccessPath = some (first :: rest))
    (h4 : rst.nodes rnRef = some rn)
    (h5 : rn.root = some rootRef)
    (h6 : rst.nodes rootRef = some rootNode)
    (h7 : first.elementId ≠ rootNode.elemId) :
    rnodeInsert rst es rnRef nrnRef = .ok rst := by
  unfold rnodeInsert
  rw [h1]; try dsimp only []
  rw [h2]; try dsimp only []
  rw [h3]; try dsimp only []
  rw [h4]; try dsimp only []
  rw [h5]; try dsimp only []
  rw [h6]; try dsimp only []
  rw [if_pos h7]

/-- Witness for `rnodeInsert_foreign_root_noop`: node 2 wraps element `"w"`
whose path starts at the foreign element `"other"`. -/
theorem rnodeInsert_foreign_root_noop_witness :
    rnodeInsert c6rst c6store 0 2 = .ok c6rst :=
  rnodeInsert_foreign_root_noop c6rst c6store 0 2 0 _ _ _ _ ⟨"other", "home"⟩ []
    (Eq.refl _) (Eq.refl _) (Eq.refl _) (Eq.refl _) (Eq.refl _) (Eq.refl _) (by decide)

theorem randRead_length : ∀ (n : Nat) (st : RngState), ((randRead st n).1).length = n := by
  intro n
  induction n with
  | zero => intro st; rfl
  | succ k ih =>
      intro st
      simp only [randRead, List.length_cons]
      rw [ih]

set_option maxRecDepth 4000 in
/-- C9. The generator returned by `NewIDgenerator(seed)` calls
`rand.Seed(seed)` on every invocation, so its output is independent of the
ambient PRNG state: any two calls — in particular two successive calls to
the same generator — return the identical 32-byte string.  Generated IDs are
fully deterministic per seed and never unique across calls. -/
theorem NewIDgenerator_reseeds_every_call (seed : Int) (st st' : RngState) :
    (NewIDgenerator seed st).1 = (NewIDgenerator seed st').1 ∧
    (NewIDgenerator seed ((NewIDgenerator seed st).2)).1 = (NewIDgenerator seed st).1 ∧
    ((NewIDgenerator seed st).1).length = 32 :=
  have key : ∀ a b : RngState, NewIDgenerator seed a = NewIDgenerator seed b :=
    fun _ _ => Eq.refl _
  ⟨congrArg Prod.fst (key st st'), congrArg Prod.fst (key _ st), randRead_length 32 _⟩

/-- C5 (counterexample). The claim says every route with an even
post-root token count makes `rnode.match` return `NotFound`.  At the trie
`c5rst` (root element owning the parameterized view `":id"`, authorization
granted, no `":id"` entry in `next`), the two-token route `"/x/y"` instead
returns `FrameworkFailure`: the parameterized fallback runs before the
parity check and fails on the missing child map. -/
theorem rnodeMatch_even_counterexample :
    (splitAfterSlash (trimPrefixStr "/x/y" "/")).length % 2 = 0 ∧
    (rnodeMatch c5rst c5store 0 "/x/y").1 = .error .frameworkFailure ∧
    ¬ (rnodeMatch c5rst c5store 0 "/x/y").1 = .error .notFound := by
  refine ⟨by decide, by rfl, by decide⟩

/-- C5 (amended). A route whose post-root token count is even makes
`rnode.match` return `NotFound` (and hence no activation function), provided
the root node's handling of the first token does not itself fail first: the
first token is found in the root's `next` map, or the root's element has no
parameterized view, or its parameterized view is authorized and its `next`
map has an entry for the parameter name.  (Outside this proviso the code
returns `Unauthorized` or `FrameworkFailure` instead, as the counterexample
shows.) -/
theorem rnodeMatch_even_token_notFound (rst : RStore) (es : Store) (rRef : Nat) (rd : RnodeData)
    (route : String)
    (hrd : rst.nodes rRef = some rd)
    (hev : (splitAfterSlash (trimPrefixStr route "/")).length % 2 = 0)
    (hcase :
      (goMapGet (rd.next.getD []) ((splitAfterSlash (trimPrefixStr route "/")).headD "")).isSome = true
      ∨ hasParameterizedView es rd.elemId = none
      ∨ (∃ p m', hasParameterizedView es rd.elemId = some p ∧
           Store.isViewAuthorized es rd.elemId p = true ∧
           goMapGet (rd.next.getD []) p = some m')) :
    (rnodeMatch rst es rRef route).1 = .error .notFound := by
  have hnil := splitAfterSlash_ne_nil (trimPrefixStr route "/")
  have hls0 : ¬ (splitAfterSlash (trimPrefixStr route "/")).length = 0 := by
    intro h0; exact hnil (List.length_eq_zero.mp h0)
  have hls1 : ¬ (splitAfterSlash (trimPrefixStr route "/")).length = 1 := by omega
  have hpar : ¬ (splitAfterSlash (trimPrefixStr route "/")).length % 2 = 1 := by omega
  unfold rnodeMatch
  simp only []
  rw [if_neg hls0, hrd]
  dsimp only []
  rcases hcase with hsome | hnone | ⟨p, m', hp, hauth, hm⟩
  · obtain ⟨m, hm⟩ := Option.isSome_iff_exists.mp hsome
    rw [hm]
    dsimp only []
    rw [if_neg hls1, if_pos hpar]
  · cases hfirst : goMapGet (rd.next.getD [])
        ((splitAfterSlash (trimPrefixStr route "/")).headD "") with
    | some m =>
        dsimp only []
        rw [if_neg hls1, if_pos hpar]
    | none =>
        dsimp only []
        rw [hnone]
        dsimp only []
        rw [if_neg hls1, if_pos hpar]
  · cases hfirst : goMapGet (rd.next.getD [])
        ((splitAfterSlash (trimPrefixStr route "/")).headD "") with
    | some m =>
        dsimp only []
        rw [if_neg hls1, if_pos hpar]
    | none =>
        dsimp only []
        rw [hp]
        dsimp only []
        rw [hauth]
        simp only [Bool.not_true]
        rw [if_neg Bool.false_ne_true, if_pos hls1, hm]
        dsimp only []
        rw [if_neg hls1, if_pos hpar]

/-- Witness for `rnodeMatch_even_token_notFound`: the trie `c6rst` over
`c6store` (root element with no parameterized view), route `"/x/y"`. -/
theorem rnodeMatch_even_token_notFound_witness :
    (rnodeMatch c6rst c6store 0 "/x/y").1 = .error .notFound :=
  rnodeMatch_even_token_notFound c6rst c6store 0 _ "/x/y" (Eq.refl _) (by decide)
    (Or.inr (Or.inl (Eq.refl _)))

/-- C4. The router's reactive handler collapses every failure into one
externally observable signal: whatever error `rnode.match` returns
(`NotFound`, `Unauthorized` or `FrameworkFailure`), and likewise any error
returned by the activation closure chain, the handler performs exactly
`Set("navigation", "unauthorized", Bool(true))` on the root element and
stops; the current route is published (`SyncUISetData("currentroute", ...)`)
only when the activation chain completes without error.  The normalization
hypothesis rules out the empty-route slice panic
(`newroute[len(newroute)-1:]`). -/
theorem routerHandler_collapses_failures (cfg : RouterCfg) (rst : RStore) (es : Store)
    (route nr : String) (fuel : Nat)
    (hnorm : normalizeRoute cfg route = some nr) :
    (∀ e es1, rnodeMatch rst es cfg.rootRnode nr = (.error e, es1) →
        routerHandler cfg rst es (.uiStr route) fuel =
          .ok (es1.elemSetCat cfg.rootElemId "navigation" "unauthorized" (.uiBool true), true)) ∧
    (∀ plan es1, rnodeMatch rst es cfg.rootRnode nr = (.ok plan, es1) →
        (∀ e s2, runActivationChain rst plan fuel es1 = .err e s2 →
            routerHandler cfg rst es (.uiStr route) fuel =
              .ok (s2.elemSetCat cfg.rootElemId "navigation" "unauthorized" (.uiBool true), true)) ∧
        (∀ s2, runActivationChain rst plan fuel es1 = .ok s2 →
            routerHandler cfg rst es (.uiStr route) fuel =
              .ok (s2.syncUISetData cfg.rootElemId "currentroute" (.uiStr route), false))) := by
  constructor
  · intro e es1 hm
    unfold routerHandler
    dsimp only []
    rw [hnorm]
    dsimp only []
    rw [hm]
  · intro plan es1 hm
    constructor
    · intro e s2 hc
      unfold routerHandler
      dsimp only []
      rw [hnorm]
      dsimp only []
      rw [hm]
      dsimp only []
      rw [hc]
    · intro s2 hc
      unfold routerHandler
      dsimp only []
      rw [hnorm]
      dsimp only []
      rw [hm]
      dsimp only []
      rw [hc]

/-- Witness for `routerHandler_collapses_failures`: on `c5rst`/`c5store` the
route `"/x/y"` fails to match (`FrameworkFailure`) and the handler emits the
`unauthorized` signal. -/
theorem routerHandler_collapses_failures_witness :
    routerHandler c4cfg c5rst c5store (.uiStr "/x/y") 2 =
      .ok ((rnodeMatch c5rst c5store 0 "/x/y").2.elemSetCat "root" "navigation" "unauthorized"
        (.uiBool true), true) :=
  (routerHandler_collapses_failures c4cfg c5rst c5store "/x/y" "/x/y" 2 (Eq.refl _)).1
    GoError.frameworkFailure (rnodeMatch c5rst c5store 0 "/x/y").2 (Eq.refl _)

end UISpec
